import Mathlib

/-!
# Descriptor-ring lifecycle of the IntelMausi driver

A shallow embedding of `getParams`, `setupDMADescriptors`, `freeDMADescriptors`,
`clearDescriptors` and `discardPacketFragment` from
`IntelMausiEthernet/IntelMausiSetup.cpp`.

* Pointers are `Option Nat` (`none` is `NULL`), the payload being the identity of
  the object pointed to.
* Fixed-size C arrays are lists; a state is well formed when each list has the
  length of its array (`kNumTxDesc` or `kNumRxDesc`).
* Calls into the kernel (allocation, prepare, release, ...) are recorded, in program
  order, in the ghost field `trace`; what those calls return is read from an `Env`.
-/

namespace IntelMausi

/-! ## Data model -/

/-- What `IntelMausiEthernet.h` (not part of the sources) provides to the setup code:
the ring capacities, the number of spare buffers, the byte-order conversion applied to
descriptor addresses and the default argument of `discardPacketFragment`. -/
structure Config where
  kNumTxDesc : Nat
  kNumRxDesc : Nat
  kRxNumSpareMbufs : Nat
  OSSwapHostToLittleInt64 : Nat → Nat
  discardExtended : Bool

/-- Calls into the kernel that acquire or release a resource. -/
inductive Op where
  /-- The call `IOBufferMemoryDescriptor::inTaskWithPhysicalMask` returned the object `b`. -/
  | bufDescAlloc (b : Nat)
  /-- The call `b->prepare()` succeeded. -/
  | prepare (b : Nat)
  /-- The call `b->complete()`. -/
  | complete (b : Nat)
  /-- The call `b->release()` on a buffer memory descriptor. -/
  | bufDescRelease (b : Nat)
  /-- The call `IODMACommand::withSpecification` returned the object `c`. -/
  | dmaCmdAlloc (c : Nat)
  /-- The call `c->setMemoryDescriptor(b)` succeeded. -/
  | setMemoryDescriptor (c b : Nat)
  /-- The call `c->clearMemoryDescriptor()`. -/
  | clearMemoryDescriptor (c : Nat)
  /-- The call `c->release()` on a DMA command. -/
  | dmaCmdRelease (c : Nat)
  /-- The call `IOMbufNaturalMemoryCursor::withSpecification` returned the object `c`. -/
  | cursorAlloc (c : Nat)
  /-- The call `c->release()` on an mbuf cursor. -/
  | cursorRelease (c : Nat)
  /-- The call `allocatePacket` returned the buffer `m`. -/
  | allocatePacket (m : Nat)
  /-- The call `freePacket(m)`. -/
  | freePacket (m : Nat)
  /-- The call `freePacketEx(m)`. -/
  | freePacketEx (m : Nat)
  deriving DecidableEq, Repr

/-- Software metadata of a transmit slot (`txBufArray[i]`). -/
structure TxBuf where
  mbuf : Option Nat
  numDescs : Nat
  pad : Nat
  deriving DecidableEq, Repr

/-- Software metadata of a receive slot (`rxBufArray[i]`). -/
structure RxBuf where
  mbuf : Option Nat
  phyAddr : Nat
  deriving DecidableEq, Repr

/-- A transmit descriptor (`struct e1000_data_desc`), as three words. -/
structure TxDesc where
  buffer_addr : Nat
  lower : Nat
  upper : Nat
  deriving DecidableEq, Repr

/-- A receive descriptor (`union e1000_rx_desc_extended`), seen through its `read` view:
two 64-bit words that the hardware overwrites on write-back. -/
structure RxDesc where
  buffer_addr : Nat
  reserved : Nat
  deriving DecidableEq, Repr

/-- The members of the driver object that the ring code reads or writes, with the ghost
fields `trace` (kernel calls made so far) and `allocCalls` (number of `allocatePacket`
calls made so far). -/
structure State where
  txBufDesc : Option Nat
  txDescArray : Option (List TxDesc)
  txDescDmaCmd : Option Nat
  txPhyAddr : Nat
  txBufArray : List TxBuf
  txNextDescIndex : Nat
  txDirtyIndex : Nat
  txCleanBarrierIndex : Nat
  txNumFreeDesc : Nat
  txMbufCursor : Option Nat
  rxBufDesc : Option Nat
  rxDescArray : Option (List RxDesc)
  rxDescDmaCmd : Option Nat
  rxPhyAddr : Nat
  rxBufArray : List RxBuf
  rxNextDescIndex : Nat
  rxCleanedCount : Nat
  rxMbufCursor : Option Nat
  rxPacketHead : Option Nat
  rxPacketTail : Option Nat
  rxPacketSize : Nat
  trace : List Op
  allocCalls : Nat
  deriving DecidableEq, Repr

/-- What the kernel answers during one run of `setupDMADescriptors`: the object returned
by each allocation (`none` is `NULL`), whether each `prepare` and `setMemoryDescriptor`
succeeds, the address produced by each `gen64IOVMSegments` (`none` is failure), the
contents of the freshly mapped descriptor memory, the buffer returned by the `n`-th call
of `allocatePacket`, and for a buffer the pair (number of segments, `rxSegment.location`)
that `getPhysicalSegments` yields. -/
structure Env where
  txBufDescAlloc : Option Nat
  txPrepare : Bool
  txDescBytes : List TxDesc
  txDmaCmdAlloc : Option Nat
  txSetMemoryDescriptor : Bool
  txGen64IOVMSegments : Option Nat
  txCursorAlloc : Option Nat
  rxBufDescAlloc : Option Nat
  rxPrepare : Bool
  rxDescBytes : List RxDesc
  rxDmaCmdAlloc : Option Nat
  rxSetMemoryDescriptor : Bool
  rxGen64IOVMSegments : Option Nat
  rxCursorAlloc : Option Nat
  allocatePacket : Nat → Option Nat
  getPhysicalSegments : Nat → Nat × Nat

/-! ## Control-flow helpers -/

/-- Records one kernel call. -/
def emit (op : Op) (s : State) : State :=
  { s with trace := s.trace ++ [op] }

/-- The loop `for (i = 0; i < n; i++) body`, for a body that never leaves the loop. -/
def forLoop (n : Nat) (body : Nat → State → State) (s : State) : State :=
  (List.range n).foldl (fun st i => body i st) s

/-- Modelled from the spec: the `RELEASE(x)` macro of `IntelMausiEthernet.h`, which is
not part of the sources; a guarded release (`if (x) { x->release(); x = NULL; }`).
Returns the calls made and the new value of `x`. -/
def RELEASE (rel : Nat → Op) (x : Option Nat) : List Op × Option Nat :=
  match x with
  | some h => ([rel h], none)
  | none => ([], none)

/-! ## `discardPacketFragment` and `clearDescriptors` -/

/-- Embedding of `IntelMausi::discardPacketFragment(bool extended)`. -/
def discardPacketFragment (extended : Bool) (s : State) : State :=
  let s1 :=
    match s.rxPacketHead with
    | some m => if extended then emit (Op.freePacketEx m) s else emit (Op.freePacket m) s
    | none => s
  { s1 with rxPacketHead := none, rxPacketTail := none, rxPacketSize := 0 }

/-- Body of the transmit loop of `clearDescriptors`. -/
def clearTxSlot (i : Nat) (s : State) : State :=
  match s.txBufArray[i]? with
  | some b =>
    match b.mbuf with
    | some m =>
      { s with trace := s.trace ++ [Op.freePacket m],
               txBufArray := s.txBufArray.set i { b with mbuf := none, numDescs := 0 } }
    | none => s
  | none => s

/-- First part of `clearDescriptors`: the transmit ring. -/
def clearTxRing (cfg : Config) (s : State) : State :=
  let s1 := forLoop cfg.kNumTxDesc clearTxSlot s
  { s1 with txNextDescIndex := 0, txDirtyIndex := 0, txCleanBarrierIndex := 0,
            txNumFreeDesc := cfg.kNumTxDesc }

/-- Body of the receive loop of `clearDescriptors`. -/
def restoreRxSlot (cfg : Config) (i : Nat) (s : State) : State :=
  match s.rxDescArray, s.rxBufArray[i]? with
  | some descs, some b =>
    let d : RxDesc := { buffer_addr := cfg.OSSwapHostToLittleInt64 b.phyAddr, reserved := 0 }
    { s with rxDescArray := some (descs.set i d) }
  | _, _ => s

/-- Second part of `clearDescriptors`: the receive ring. -/
def clearRxRing (cfg : Config) (s : State) : State :=
  let s1 := if s.rxDescArray.isSome then forLoop cfg.kNumRxDesc (restoreRxSlot cfg) s else s
  { s1 with rxCleanedCount := 0, rxNextDescIndex := 0 }

/-- Embedding of `IntelMausi::clearDescriptors()`: the transmit part, the receive part, then
`discardPacketFragment()`. -/
def clearDescriptors (cfg : Config) (s : State) : State :=
  discardPacketFragment cfg.discardExtended (clearRxRing cfg (clearTxRing cfg s))

/-! ## `freeDMADescriptors` -/

/-- Body of the loop that releases the receive buffers (in `freeDMADescriptors` and at
`error10` of `setupDMADescriptors`). -/
def freeRxSlot (i : Nat) (s : State) : State :=
  match s.rxBufArray[i]? with
  | some b =>
    match b.mbuf with
    | some m =>
      { s with trace := s.trace ++ [Op.freePacket m],
               rxBufArray := s.rxBufArray.set i { b with mbuf := none } }
    | none => s
  | none => s

/-- Embedding of `IntelMausi::freeDMADescriptors()`. -/
def freeDMADescriptors (cfg : Config) (s : State) : State :=
  let s1 :=
    match s.txBufDesc with
    | some b =>
      { s with trace := s.trace ++ [Op.complete b, Op.bufDescRelease b],
               txBufDesc := none, txPhyAddr := 0 }
    | none => s
  let s2 :=
    match s1.txDescDmaCmd with
    | some c =>
      { s1 with trace := s1.trace ++ [Op.clearMemoryDescriptor c, Op.dmaCmdRelease c],
                txDescDmaCmd := none }
    | none => s1
  let r3 := RELEASE Op.cursorRelease s2.txMbufCursor
  let s3 := { s2 with trace := s2.trace ++ r3.1, txMbufCursor := r3.2 }
  let s4 :=
    match s3.rxBufDesc with
    | some b =>
      { s3 with trace := s3.trace ++ [Op.complete b, Op.bufDescRelease b],
                rxDescArray := none, rxBufDesc := none, rxPhyAddr := 0 }
    | none => s3
  let s5 :=
    match s4.rxDescDmaCmd with
    | some c =>
      { s4 with trace := s4.trace ++ [Op.clearMemoryDescriptor c, Op.dmaCmdRelease c],
                rxDescDmaCmd := none }
    | none => s4
  let r6 := RELEASE Op.cursorRelease s5.rxMbufCursor
  let s6 := { s5 with trace := s5.trace ++ r6.1, rxMbufCursor := r6.2 }
  forLoop cfg.kNumRxDesc freeRxSlot s6

/-! ## `setupDMADescriptors`

The labels `error10` ... `error1` are functions, each ending with a call of the next one
(fall-through). A label that calls a method through a member pointer reads the member;
the branch `none` stands for a call through `NULL`, which no path of
`setupDMADescriptors` reaches, and makes no call. -/

/-- Label `error1`: `txBufDesc->release(); txBufDesc = NULL; goto done;`. -/
def error1 (s : State) : State :=
  let s1 := match s.txBufDesc with
    | some b => emit (Op.bufDescRelease b) s
    | none => s
  { s1 with txBufDesc := none }

/-- Label `error2`: `txBufDesc->complete();`, then `error1`. -/
def error2 (s : State) : State :=
  error1 (match s.txBufDesc with
    | some b => emit (Op.complete b) s
    | none => s)

/-- Label `error3`: `RELEASE(txDescDmaCmd);`, then `error2`. -/
def error3 (s : State) : State :=
  let r := RELEASE Op.dmaCmdRelease s.txDescDmaCmd
  error2 { s with trace := s.trace ++ r.1, txDescDmaCmd := r.2 }

/-- Label `error4`: `txDescDmaCmd->clearMemoryDescriptor();`, then `error3`. -/
def error4 (s : State) : State :=
  error3 (match s.txDescDmaCmd with
    | some c => emit (Op.clearMemoryDescriptor c) s
    | none => s)

/-- Label `error5`: `RELEASE(txMbufCursor);`, then `error4`. -/
def error5 (s : State) : State :=
  let r := RELEASE Op.cursorRelease s.txMbufCursor
  error4 { s with trace := s.trace ++ r.1, txMbufCursor := r.2 }

/-- Label `error6`: `rxBufDesc->release(); rxDescArray = NULL; rxBufDesc = NULL;`, then
`error5`. -/
def error6 (s : State) : State :=
  let s1 := match s.rxBufDesc with
    | some b => emit (Op.bufDescRelease b) s
    | none => s
  error5 { s1 with rxDescArray := none, rxBufDesc := none }

/-- Label `error7`: `rxBufDesc->complete();`, then `error6`. -/
def error7 (s : State) : State :=
  error6 (match s.rxBufDesc with
    | some b => emit (Op.complete b) s
    | none => s)

/-- Label `error8`: `RELEASE(rxDescDmaCmd);`, then `error7`. -/
def error8 (s : State) : State :=
  let r := RELEASE Op.dmaCmdRelease s.rxDescDmaCmd
  error7 { s with trace := s.trace ++ r.1, rxDescDmaCmd := r.2 }

/-- Label `error9`: `rxDescDmaCmd->clearMemoryDescriptor();`, then `error8`. -/
def error9 (s : State) : State :=
  error8 (match s.rxDescDmaCmd with
    | some c => emit (Op.clearMemoryDescriptor c) s
    | none => s)

/-- Label `error10`: release every receive buffer, `RELEASE(rxMbufCursor);`, then
`error9`. -/
def error10 (cfg : Config) (s : State) : State :=
  let s1 := forLoop cfg.kNumRxDesc freeRxSlot s
  let r := RELEASE Op.cursorRelease s1.rxMbufCursor
  error9 { s1 with trace := s1.trace ++ r.1, rxMbufCursor := r.2 }

/-- Body of the loop `for (i = 0; i < kNumTxDesc; i++)` that empties the transmit slots. -/
def initTxSlot (i : Nat) (s : State) : State :=
  { s with txBufArray := s.txBufArray.set i { mbuf := none, numDescs := 0, pad := 0 } }

/-- Body of the loop `for (i = 0; i < kNumRxDesc; i++)` that empties the receive slots. -/
def initRxSlot (i : Nat) (s : State) : State :=
  { s with rxBufArray := s.rxBufArray.set i { mbuf := none, phyAddr := 0 } }

/-- The test `(n != 1) || (rxSegment.location & 0x07ff)` on the answer of
`getPhysicalSegments`. -/
def segmentRejected (seg : Nat × Nat) : Bool :=
  seg.1 != 1 || seg.2 &&& 0x07ff != 0

/-- The loop "Alloc receive buffers" over the slot indices still to visit. The flag is
`false` when the loop left through `goto error10`; the state is then the one at the
jump. -/
def allocRxBuffers (cfg : Config) (env : Env) : List Nat → State → Bool × State
  | [], s => (true, s)
  | i :: rest, s =>
    match env.allocatePacket s.allocCalls with
    | none => (false, { s with allocCalls := s.allocCalls + 1 })
    | some m =>
      let s1 := { s with
                  trace := s.trace ++ [Op.allocatePacket m],
                  allocCalls := s.allocCalls + 1,
                  rxBufArray := s.rxBufArray.modify (fun b => { b with mbuf := some m }) i }
      let seg := env.getPhysicalSegments m
      if segmentRejected seg then (false, s1)
      else
        let d : RxDesc := { buffer_addr := cfg.OSSwapHostToLittleInt64 seg.2, reserved := 0 }
        allocRxBuffers cfg env rest
          { s1 with
            rxBufArray := s1.rxBufArray.modify (fun b => { b with phyAddr := seg.2 }) i,
            rxDescArray := s1.rxDescArray.map (fun descs => descs.set i d) }

/-- First spare loop: `spareMbuf[i] = allocatePacket(kRxBufferPktSize)`. The local array
`spareMbuf` is carried next to the state. -/
def allocSpare (env : Env) : Nat → State × List (Option Nat) → State × List (Option Nat)
  | 0, p => p
  | n + 1, p =>
    let q := allocSpare env n p
    let m := env.allocatePacket q.1.allocCalls
    let s1 := { q.1 with allocCalls := q.1.allocCalls + 1 }
    (match m with
      | some b => emit (Op.allocatePacket b) s1
      | none => s1, q.2 ++ [m])

/-- Second spare loop: `if (spareMbuf[i]) freePacket(spareMbuf[i])`. -/
def freeSpare (spare : List (Option Nat)) (i : Nat) (s : State) : State :=
  match spare[i]? with
  | some (some m) => emit (Op.freePacket m) s
  | _ => s

/-- Embedding of `IntelMausi::setupDMADescriptors()`. The flag is the value returned; a
`goto errorN` is the call of the label `errorN`, each label falling through to the next. -/
def setupDMADescriptors (cfg : Config) (env : Env) (s : State) : Bool × State :=
  match env.txBufDescAlloc with
  | none => (false, { s with txBufDesc := none })
  | some tb =>
    let s1 := { s with trace := s.trace ++ [Op.bufDescAlloc tb], txBufDesc := some tb }
    if !env.txPrepare then (false, error1 s1) else
    let s2 := { s1 with trace := s1.trace ++ [Op.prepare tb], txDescArray := some env.txDescBytes }
    match env.txDmaCmdAlloc with
    | none => (false, error2 { s2 with txDescDmaCmd := none })
    | some tc =>
      let s3 := { s2 with trace := s2.trace ++ [Op.dmaCmdAlloc tc], txDescDmaCmd := some tc }
      if !env.txSetMemoryDescriptor then (false, error3 s3) else
      let s4 := emit (Op.setMemoryDescriptor tc tb) s3
      match env.txGen64IOVMSegments with
      | none => (false, error4 s4)
      | some ta =>
        let s5 := { s4 with txPhyAddr := ta,
                            txDescArray := some (List.replicate cfg.kNumTxDesc ⟨0, 0, 0⟩) }
        let s6 := forLoop cfg.kNumTxDesc initTxSlot s5
        let s7 := { s6 with txNextDescIndex := 0, txDirtyIndex := 0, txCleanBarrierIndex := 0,
                            txNumFreeDesc := cfg.kNumTxDesc }
        match env.txCursorAlloc with
        | none => (false, error4 { s7 with txMbufCursor := none })
        | some tm =>
          let s8 := { s7 with trace := s7.trace ++ [Op.cursorAlloc tm], txMbufCursor := some tm }
          match env.rxBufDescAlloc with
          | none => (false, error5 { s8 with rxBufDesc := none })
          | some rb =>
            let s9 := { s8 with trace := s8.trace ++ [Op.bufDescAlloc rb], rxBufDesc := some rb }
            if !env.rxPrepare then (false, error6 s9) else
            let s10 := { s9 with trace := s9.trace ++ [Op.prepare rb], rxDescArray := some env.rxDescBytes }
            match env.rxDmaCmdAlloc with
            | none => (false, error7 { s10 with rxDescDmaCmd := none })
            | some rc =>
              let s11 := { s10 with trace := s10.trace ++ [Op.dmaCmdAlloc rc], rxDescDmaCmd := some rc }
              if !env.rxSetMemoryDescriptor then (false, error8 s11) else
              let s12 := emit (Op.setMemoryDescriptor rc rb) s11
              match env.rxGen64IOVMSegments with
              | none => (false, error9 s12)
              | some ra =>
                let s13 := { s12 with rxPhyAddr := ra,
                                      rxDescArray := some (List.replicate cfg.kNumRxDesc ⟨0, 0⟩) }
                let s14 := forLoop cfg.kNumRxDesc initRxSlot s13
                let s15 := { s14 with rxCleanedCount := 0, rxNextDescIndex := 0 }
                match env.rxCursorAlloc with
                | none => (false, error9 { s15 with rxMbufCursor := none })
                | some rm =>
                  let s16 := { s15 with trace := s15.trace ++ [Op.cursorAlloc rm], rxMbufCursor := some rm }
                  match allocRxBuffers cfg env (List.range cfg.kNumRxDesc) s16 with
                  | (false, s17) => (false, error10 cfg s17)
                  | (true, s17) =>
                    let p := allocSpare env cfg.kRxNumSpareMbufs (s17, [])
                    (true, forLoop cfg.kRxNumSpareMbufs (freeSpare p.2) p.1)

/-! ## `getParams` -/

/-- The parameter dictionary that `getParams` reads: for each key the value found under
it, `none` when the key is absent or holds an object of another class (`OSDynamicCast`
then yields `NULL`). A number is the value stored in the `OSNumber`. -/
structure Params where
  enableTSO4 : Option Bool
  enableTSO6 : Option Bool
  enableCSO6 : Option Bool
  intrRate10 : Option Nat
  intrRate100 : Option Nat
  intrRate1000 : Option Nat
  rxAbsTime10 : Option Nat
  rxAbsTime100 : Option Nat
  rxAbsTime1000 : Option Nat
  rxDelayTime10 : Option Nat
  rxDelayTime100 : Option Nat
  rxDelayTime1000 : Option Nat

/-- The members of the driver object that `getParams` writes. -/
structure ParamMembers where
  enableTSO4 : Bool
  enableTSO6 : Bool
  enableCSO6 : Bool
  intrThrValue10 : Nat
  intrThrValue100 : Nat
  intrThrValue1000 : Nat
  rxAbsTime10 : Nat
  rxAbsTime100 : Nat
  rxAbsTime1000 : Nat
  rxDelayTime10 : Nat
  rxDelayTime100 : Nat
  rxDelayTime1000 : Nat
  deriving DecidableEq, Repr

/-- The kernel's `OSNumber::unsigned32BitValue()`: the stored value as a `UInt32`. -/
def unsigned32BitValue (v : Nat) : Nat :=
  v % 2 ^ 32

/-- Embedding of `IntelMausi::getParams()`, without its log output. The locals
`newIntrRate10`, `newIntrRate100` and `newIntrRate1000` are `UInt32`, so `+ 1` is taken
modulo `2 ^ 32`; the argument is the dictionary found under `kParamName`, `none` when
there is none. -/
def getParams (params : Option Params) : ParamMembers :=
  match params with
  | some p =>
    let enableTSO4 := match p.enableTSO4 with
      | some b => b
      | none => false
    let enableTSO6 := match p.enableTSO6 with
      | some b => b
      | none => false
    let enableCSO6 := match p.enableCSO6 with
      | some b => b
      | none => false
    let newIntrRate10 := 3000
    let newIntrRate10 := match p.intrRate10 with
      | some v => unsigned32BitValue v
      | none => newIntrRate10
    let newIntrRate10 :=
      if newIntrRate10 < 2500 then 2500
      else if newIntrRate10 > 10000 then 10000
      else newIntrRate10
    let intrThrValue10 := 3906250 / ((newIntrRate10 + 1) % 2 ^ 32)
    let newIntrRate100 := 5000
    let newIntrRate100 := match p.intrRate100 with
      | some v => unsigned32BitValue v
      | none => newIntrRate100
    let newIntrRate100 :=
      if newIntrRate100 < 2500 then 2500
      else if newIntrRate100 > 10000 then 10000
      else newIntrRate100
    let intrThrValue100 := 3906250 / ((newIntrRate100 + 1) % 2 ^ 32)
    let newIntrRate1000 := 7000
    let newIntrRate1000 := match p.intrRate1000 with
      | some v => unsigned32BitValue v
      | none => newIntrRate1000
    let newIntrRate1000 :=
      if newIntrRate1000 < 2500 then 2500
      else if newIntrRate1000 > 10000 then 10000
      else newIntrRate1000
    let intrThrValue1000 := 3906250 / ((newIntrRate1000 + 1) % 2 ^ 32)
    let rxAbsTime10 := match p.rxAbsTime10 with
      | some v => if unsigned32BitValue v > 500 then 0 else unsigned32BitValue v
      | none => 0
    let rxAbsTime100 := match p.rxAbsTime100 with
      | some v => if unsigned32BitValue v > 500 then 0 else unsigned32BitValue v
      | none => 0
    let rxAbsTime1000 := match p.rxAbsTime1000 with
      | some v => if unsigned32BitValue v > 500 then 0 else unsigned32BitValue v
      | none => 0
    let rxDelayTime10 := match p.rxDelayTime10 with
      | some v => if unsigned32BitValue v > 100 then 0 else unsigned32BitValue v
      | none => 0
    let rxDelayTime100 := match p.rxDelayTime100 with
      | some v => if unsigned32BitValue v > 100 then 0 else unsigned32BitValue v
      | none => 0
    let rxDelayTime1000 := match p.rxDelayTime1000 with
      | some v => if unsigned32BitValue v > 100 then 0 else unsigned32BitValue v
      | none => 0
    { enableTSO4 := enableTSO4, enableTSO6 := enableTSO6, enableCSO6 := enableCSO6,
      intrThrValue10 := intrThrValue10, intrThrValue100 := intrThrValue100,
      intrThrValue1000 := intrThrValue1000,
      rxAbsTime10 := rxAbsTime10, rxAbsTime100 := rxAbsTime100,
      rxAbsTime1000 := rxAbsTime1000,
      rxDelayTime10 := rxDelayTime10, rxDelayTime100 := rxDelayTime100,
      rxDelayTime1000 := rxDelayTime1000 }
  | none =>
    let newIntrRate10 := 3000
    let newIntrRate100 := 5000
    let newIntrRate1000 := 7000
    { enableTSO4 := false, enableTSO6 := false, enableCSO6 := false,
      intrThrValue10 := 3906250 / ((newIntrRate10 + 1) % 2 ^ 32),
      intrThrValue100 := 3906250 / ((newIntrRate100 + 1) % 2 ^ 32),
      intrThrValue1000 := 3906250 / ((newIntrRate1000 + 1) % 2 ^ 32),
      rxAbsTime10 := 0, rxAbsTime100 := 0, rxAbsTime1000 := 0,
      rxDelayTime10 := 0, rxDelayTime100 := 0, rxDelayTime1000 := 0 }

/-! ## Closed forms used in the statements -/

/-- Applies `f` to the first `n` entries of a list: the effect of `n` iterations of a
loop that rewrites entry `i` at iteration `i`. -/
def mapFirst {α : Type} (n : Nat) (f : α → α) (l : List α) : List α :=
  (l.take n).map f ++ l.drop n

/-- What the transmit loop of `clearDescriptors` leaves in a slot. -/
def clearedTxBuf (b : TxBuf) : TxBuf :=
  match b.mbuf with
  | some _ => { b with mbuf := none, numDescs := 0 }
  | none => b

/-- The `freePacket` calls for the buffers bound to a list of transmit slots, in slot
order. -/
def txReleases (l : List TxBuf) : List Op :=
  (l.filterMap TxBuf.mbuf).map Op.freePacket

/-- The receive descriptors after `n` iterations of the restore loop of
`clearDescriptors`: descriptor `j < n` is rewritten from the cached address of slot `j`. -/
def restoredDescs (cfg : Config) (n : Nat) (bufs : List RxBuf) (descs : List RxDesc) :
    List RxDesc :=
  descs.mapIdx (fun j d =>
    if j < n then
      match bufs[j]? with
      | some b => { buffer_addr := cfg.OSSwapHostToLittleInt64 b.phyAddr, reserved := 0 }
      | none => d
    else d)

/-- The call that `discardPacketFragment` makes for a pending fragment. -/
def fragmentRelease (extended : Bool) (head : Option Nat) : List Op :=
  match head with
  | some m => [if extended then Op.freePacketEx m else Op.freePacket m]
  | none => []

/-- A small configuration: two slots per ring, one spare buffer, a little-endian host. -/
def sampleConfig : Config :=
  { kNumTxDesc := 2, kNumRxDesc := 2, kRxNumSpareMbufs := 1,
    OSSwapHostToLittleInt64 := fun x => x, discardExtended := false }

/-- A running state for `sampleConfig`: one transmit buffer in flight, both receive slots
populated, receive descriptors overwritten by write-back, a pending fragment. -/
def sampleRunning : State :=
  { txBufDesc := some 1, txDescArray := some [⟨0, 0, 0⟩, ⟨0, 0, 0⟩], txDescDmaCmd := some 2,
    txPhyAddr := 4096,
    txBufArray := [⟨some 7, 1, 0⟩, ⟨none, 0, 0⟩],
    txNextDescIndex := 1, txDirtyIndex := 0, txCleanBarrierIndex := 0, txNumFreeDesc := 1,
    txMbufCursor := some 3, rxBufDesc := some 4,
    rxDescArray := some [⟨99, 17⟩, ⟨0, 5⟩], rxDescDmaCmd := some 5, rxPhyAddr := 8192,
    rxBufArray := [⟨some 100, 204800⟩, ⟨some 101, 206848⟩],
    rxNextDescIndex := 1, rxCleanedCount := 1, rxMbufCursor := some 6,
    rxPacketHead := some 50, rxPacketTail := some 50, rxPacketSize := 64,
    trace := [], allocCalls := 0 }

/-- The `freePacket` calls for the buffers bound to a list of receive slots, in slot
order. -/
def rxReleases (l : List RxBuf) : List Op :=
  (l.filterMap RxBuf.mbuf).map Op.freePacket

/-- The calls that `freeDMADescriptors` makes for the six DMA handles, in program order. -/
def handleReleases (s : State) : List Op :=
  (match s.txBufDesc with
    | some b => [Op.complete b, Op.bufDescRelease b]
    | none => []) ++
  (match s.txDescDmaCmd with
    | some c => [Op.clearMemoryDescriptor c, Op.dmaCmdRelease c]
    | none => []) ++
  (match s.txMbufCursor with
    | some c => [Op.cursorRelease c]
    | none => []) ++
  (match s.rxBufDesc with
    | some b => [Op.complete b, Op.bufDescRelease b]
    | none => []) ++
  (match s.rxDescDmaCmd with
    | some c => [Op.clearMemoryDescriptor c, Op.dmaCmdRelease c]
    | none => []) ++
  (match s.rxMbufCursor with
    | some c => [Op.cursorRelease c]
    | none => [])

/-- The buffers that the loop "Alloc receive buffers" acquires in `n` iterations when its
first `allocatePacket` call is call number `c`: the loop ends at the first call that
fails and right after the first buffer that is rejected. -/
def acquiredBuffers (env : Env) : Nat → Nat → List Nat
  | _, 0 => []
  | c, n + 1 =>
    match env.allocatePacket c with
    | none => []
    | some m =>
      if segmentRejected (env.getPhysicalSegments m) then [m]
      else m :: acquiredBuffers env (c + 1) n

/-- Whether the loop "Alloc receive buffers" runs to its end: each of the `n` calls of
`allocatePacket`, from call number `c` on, returns a buffer that passes the segment
test. -/
def populationSucceeds (env : Env) : Nat → Nat → Bool
  | _, 0 => true
  | c, n + 1 =>
    match env.allocatePacket c with
    | none => false
    | some m =>
      !segmentRejected (env.getPhysicalSegments m) && populationSucceeds env (c + 1) n

/-- The release call that undoes an acquisition; `none` for a call that acquires
nothing. -/
def undo : Op → Option Op
  | Op.bufDescAlloc b => some (Op.bufDescRelease b)
  | Op.prepare b => some (Op.complete b)
  | Op.dmaCmdAlloc c => some (Op.dmaCmdRelease c)
  | Op.setMemoryDescriptor c _ => some (Op.clearMemoryDescriptor c)
  | Op.cursorAlloc c => some (Op.cursorRelease c)
  | Op.allocatePacket m => some (Op.freePacket m)
  | _ => none

/-- Whether a call releases a resource. -/
def isRelease : Op → Bool
  | Op.complete _ => true
  | Op.bufDescRelease _ => true
  | Op.clearMemoryDescriptor _ => true
  | Op.dmaCmdRelease _ => true
  | Op.cursorRelease _ => true
  | Op.freePacket _ => true
  | Op.freePacketEx _ => true
  | _ => false

/-- The buffer that a call acquires, if it is a successful `allocatePacket`. -/
def acquiredBuffer : Op → Option Nat
  | Op.allocatePacket m => some m
  | _ => none

/-- Whether a call is one of the acquisitions that precede the population of the receive
ring (a region, a prepare, a DMA command, a binding or a cursor). -/
def isStepAcquire (op : Op) : Bool :=
  (undo op).isSome && (acquiredBuffer op).isNone

/-- The ten acquisitions of `setupDMADescriptors` that precede the population of the
receive ring, in program order, for the objects the kernel hands out. -/
def setupSteps (tb tc tm rb rc rm : Nat) : List Op :=
  [Op.bufDescAlloc tb, Op.prepare tb, Op.dmaCmdAlloc tc, Op.setMemoryDescriptor tc tb,
   Op.cursorAlloc tm,
   Op.bufDescAlloc rb, Op.prepare rb, Op.dmaCmdAlloc rc, Op.setMemoryDescriptor rc rb,
   Op.cursorAlloc rm]

/-- Whether every kernel call of `setupDMADescriptors` that precedes the population of
the receive ring succeeds. -/
def regionStepsSucceed (env : Env) : Bool :=
  env.txBufDescAlloc.isSome && env.txPrepare && env.txDmaCmdAlloc.isSome &&
  env.txSetMemoryDescriptor && env.txGen64IOVMSegments.isSome && env.txCursorAlloc.isSome &&
  env.rxBufDescAlloc.isSome && env.rxPrepare && env.rxDmaCmdAlloc.isSome &&
  env.rxSetMemoryDescriptor && env.rxGen64IOVMSegments.isSome && env.rxCursorAlloc.isSome

/-- The state of `setupDMADescriptors` on entry to the loop "Alloc receive buffers", when
every earlier step succeeded with the objects and addresses given. -/
def beforePopulation (cfg : Config) (tb tc ta tm rb rc ra rm : Nat) (s : State) : State :=
  { s with
    txBufDesc := some tb,
    txDescArray := some (List.replicate cfg.kNumTxDesc ⟨0, 0, 0⟩),
    txDescDmaCmd := some tc,
    txPhyAddr := ta,
    txBufArray := mapFirst cfg.kNumTxDesc (fun _ => ⟨none, 0, 0⟩) s.txBufArray,
    txNextDescIndex := 0, txDirtyIndex := 0, txCleanBarrierIndex := 0,
    txNumFreeDesc := cfg.kNumTxDesc,
    txMbufCursor := some tm,
    rxBufDesc := some rb,
    rxDescArray := some (List.replicate cfg.kNumRxDesc ⟨0, 0⟩),
    rxDescDmaCmd := some rc,
    rxPhyAddr := ra,
    rxBufArray := mapFirst cfg.kNumRxDesc (fun _ => ⟨none, 0⟩) s.rxBufArray,
    rxNextDescIndex := 0, rxCleanedCount := 0,
    rxMbufCursor := some rm,
    trace := s.trace ++ setupSteps tb tc tm rb rc rm }

/-- A state for `sampleConfig` that holds no ring resource: what `setupDMADescriptors`
starts from. -/
def sampleIdle : State :=
  { txBufDesc := none, txDescArray := none, txDescDmaCmd := none, txPhyAddr := 0,
    txBufArray := [⟨none, 0, 0⟩, ⟨none, 0, 0⟩],
    txNextDescIndex := 0, txDirtyIndex := 0, txCleanBarrierIndex := 0, txNumFreeDesc := 0,
    txMbufCursor := none, rxBufDesc := none, rxDescArray := none, rxDescDmaCmd := none,
    rxPhyAddr := 0,
    rxBufArray := [⟨none, 0⟩, ⟨none, 0⟩],
    rxNextDescIndex := 0, rxCleanedCount := 0, rxMbufCursor := none,
    rxPacketHead := none, rxPacketTail := none, rxPacketSize := 0,
    trace := [], allocCalls := 0 }

/-- A kernel in which every call succeeds; call `n` of `allocatePacket` returns buffer
`100 + n`, which lies in one segment at address `2048 * (100 + n)`. -/
def sampleEnv : Env :=
  { txBufDescAlloc := some 1, txPrepare := true, txDescBytes := [⟨7, 7, 7⟩, ⟨7, 7, 7⟩],
    txDmaCmdAlloc := some 2, txSetMemoryDescriptor := true,
    txGen64IOVMSegments := some 4096, txCursorAlloc := some 3,
    rxBufDescAlloc := some 4, rxPrepare := true, rxDescBytes := [⟨7, 7⟩, ⟨7, 7⟩],
    rxDmaCmdAlloc := some 5, rxSetMemoryDescriptor := true,
    rxGen64IOVMSegments := some 8192, rxCursorAlloc := some 6,
    allocatePacket := fun n => some (100 + n),
    getPhysicalSegments := fun m => (1, 2048 * m) }

/-- As `sampleEnv`, but buffer `101` (the one for receive slot 1) lies at the misaligned
address `5`. -/
def sampleEnvMisaligned : Env :=
  { sampleEnv with getPhysicalSegments := fun m => (1, if m = 101 then 5 else 2048 * m) }

/-- As `sampleEnv`, but `rxBufDesc->prepare()` fails. -/
def sampleEnvRxPrepareFails : Env :=
  { sampleEnv with rxPrepare := false }

/-- An inconsistent transmit ring for `sampleConfig`: slot 0 holds a buffer and a non-zero
`pad`, slot 1 holds no buffer but a stale `numDescs`. -/
def sampleStale : State :=
  { sampleIdle with
    txBufArray := [⟨some 7, 2, 9⟩, ⟨none, 3, 0⟩],
    txNextDescIndex := 1, txDirtyIndex := 1, txCleanBarrierIndex := 1, txNumFreeDesc := 0 }

/-- Following the words of the claim: the rate `r` behind an interrupt-throttle value is
the 32-bit value under the key clamped to `[2500, 10000]`, or the default when the
dictionary or the key is absent. -/
def clampedRate (fallback : Nat) (num : Option Nat) : Nat :=
  match num with
  | some v => max 2500 (min 10000 (v % 2 ^ 32))
  | none => fallback

/-! ## Lemmas on the loops -/

theorem getElem?_mapFirst {α : Type} (n : Nat) (f : α → α) (l : List α) (j : Nat) :
    (mapFirst n f l)[j]? = if j < n then l[j]?.map f else l[j]? := by
  unfold mapFirst
  by_cases hj : j < n
  · by_cases hl : j < l.length
    · rw [List.getElem?_append_left (by simp; omega)]
      simp [hj, List.getElem?_take]
    · rw [List.getElem?_append_right (by simp; omega)]
      simp [hj]
      have : l[j]? = none := by simp; omega
      simp [this]; omega
  · rw [List.getElem?_append_right (by simp; omega)]
    simp [hj]
    by_cases hl : n ≤ l.length
    · simp [Nat.min_eq_left hl]; congr 1; omega
    · have h1 : l[j]? = none := by simp; omega
      simp [h1]; omega

theorem mapFirst_zero {α : Type} (f : α → α) (l : List α) : mapFirst 0 f l = l := by
  simp [mapFirst]

theorem length_mapFirst {α : Type} (n : Nat) (f : α → α) (l : List α) :
    (mapFirst n f l).length = l.length := by
  simp [mapFirst]; omega

theorem mapFirst_of_length_le {α : Type} (n : Nat) (f : α → α) (l : List α)
    (h : l.length ≤ n) : mapFirst n f l = l.map f := by
  simp [mapFirst, List.take_of_length_le h, List.drop_of_length_le h]

theorem mapFirst_succ_of_lt {α : Type} (n : Nat) (f : α → α) (l : List α) (b : α)
    (h : l[n]? = some b) : mapFirst (n + 1) f l = (mapFirst n f l).set n (f b) := by
  apply List.ext_getElem?
  intro j
  rw [List.getElem?_set, getElem?_mapFirst, getElem?_mapFirst, length_mapFirst]
  have hn : n < l.length := by
    by_contra hc
    have : l[n]? = none := by simp; omega
    simp [this] at h
  by_cases hj : n = j
  · subst hj; simp [hn, h]
  · by_cases h2 : j < n
    · simp [hj, h2, Nat.lt_succ_of_lt h2]
    · have : ¬ j < n + 1 := by omega
      simp [hj, h2, this]

theorem mapFirst_succ_of_none {α : Type} (n : Nat) (f : α → α) (l : List α)
    (h : l[n]? = none) : mapFirst (n + 1) f l = mapFirst n f l := by
  apply List.ext_getElem?
  intro j
  rw [getElem?_mapFirst, getElem?_mapFirst]
  have hn : l.length ≤ n := by simpa using h
  by_cases h2 : j < n
  · simp [h2, Nat.lt_succ_of_lt h2]
  · have hj : l[j]? = none := by simp; omega
    simp [hj]

theorem forLoop_zero (body : Nat → State → State) (s : State) : forLoop 0 body s = s := by
  simp [forLoop]

theorem forLoop_succ (n : Nat) (body : Nat → State → State) (s : State) :
    forLoop (n + 1) body s = body n (forLoop n body s) := by
  simp [forLoop, List.range_succ, List.foldl_append]

theorem set_self_of_getElem? {α : Type} (l : List α) (n : Nat) (a : α) (h : l[n]? = some a) :
    l.set n a = l := by
  apply List.ext_getElem?
  intro j
  rw [List.getElem?_set]
  by_cases hj : n = j
  · subst hj
    have hn : n < l.length := by
      by_contra hc
      have : l[n]? = none := by simp; omega
      simp [this] at h
    simp [hn, h]
  · simp [hj]

theorem forLoop_clearTxSlot (n : Nat) (s : State) :
    forLoop n clearTxSlot s =
      { s with txBufArray := mapFirst n clearedTxBuf s.txBufArray,
               trace := s.trace ++ txReleases (s.txBufArray.take n) } := by
  induction n with
  | zero => simp [forLoop_zero, mapFirst_zero, txReleases]
  | succ n ih =>
    rw [forLoop_succ, ih]
    have hget : (mapFirst n clearedTxBuf s.txBufArray)[n]? = s.txBufArray[n]? := by
      rw [getElem?_mapFirst]; simp
    unfold clearTxSlot
    simp only [hget]
    cases hb : s.txBufArray[n]? with
    | none =>
      simp [mapFirst_succ_of_none _ _ _ hb, List.take_succ, hb]
    | some b =>
      rw [mapFirst_succ_of_lt _ _ _ b hb]
      cases hm : b.mbuf with
      | none =>
        have hc : clearedTxBuf b = b := by simp [clearedTxBuf, hm]
        have hs : (mapFirst n clearedTxBuf s.txBufArray).set n b
            = mapFirst n clearedTxBuf s.txBufArray :=
          set_self_of_getElem? _ _ _ (by rw [hget, hb])
        simp [hc, hs, List.take_succ, hb, txReleases, hm]
      | some m =>
        simp [clearedTxBuf, hm, List.take_succ, hb, txReleases]

theorem restoredDescs_zero (cfg : Config) (bufs : List RxBuf) (descs : List RxDesc) :
    restoredDescs cfg 0 bufs descs = descs := by
  apply List.ext_getElem?
  intro j
  simp [restoredDescs]

theorem restoredDescs_succ (cfg : Config) (n : Nat) (bufs : List RxBuf) (descs : List RxDesc) :
    restoredDescs cfg (n + 1) bufs descs =
      match bufs[n]? with
      | some b => (restoredDescs cfg n bufs descs).set n
          { buffer_addr := cfg.OSSwapHostToLittleInt64 b.phyAddr, reserved := 0 }
      | none => restoredDescs cfg n bufs descs := by
  apply List.ext_getElem?
  intro j
  cases hb : bufs[n]? with
  | none =>
    simp only [restoredDescs, List.getElem?_mapIdx]
    cases hd : descs[j]? with
    | none => simp
    | some d =>
      by_cases h1 : j < n
      · simp [h1, Nat.lt_succ_of_lt h1]
      · by_cases h2 : j = n
        · subst h2; simp [hb]
        · have : ¬ j < n + 1 := by omega
          simp [h1, this]
  | some b =>
    simp only [restoredDescs, List.getElem?_set, List.getElem?_mapIdx, List.length_mapIdx]
    cases hd : descs[j]? with
    | none =>
      have : ¬ j < descs.length := by
        intro hc
        have := List.getElem?_eq_getElem hc
        simp [hd] at this
      by_cases h2 : n = j
      · subst h2; simp [this]
      · simp [h2]
    | some d =>
      have hlt : j < descs.length := by
        by_contra hc
        have : descs[j]? = none := by simp; omega
        simp [this] at hd
      by_cases h2 : n = j
      · subst h2; simp [hlt, hb]
      · by_cases h1 : j < n
        · simp [h1, h2, Nat.lt_succ_of_lt h1]
        · have : ¬ j < n + 1 := by omega
          simp [h1, h2, this]

theorem forLoop_restoreRxSlot (cfg : Config) (n : Nat) (s : State) (descs : List RxDesc)
    (hd : s.rxDescArray = some descs) :
    forLoop n (restoreRxSlot cfg) s =
      { s with rxDescArray := some (restoredDescs cfg n s.rxBufArray descs) } := by
  induction n with
  | zero =>
    simp [forLoop_zero, restoredDescs_zero, ← hd]
  | succ n ih =>
    rw [forLoop_succ, ih, restoredDescs_succ]
    unfold restoreRxSlot
    cases hb : s.rxBufArray[n]? <;> simp [hb]

theorem discardPacketFragment_eq (extended : Bool) (s : State) :
    discardPacketFragment extended s =
      { s with rxPacketHead := none, rxPacketTail := none, rxPacketSize := 0,
               trace := s.trace ++ fragmentRelease extended s.rxPacketHead } := by
  unfold discardPacketFragment fragmentRelease emit
  cases s.rxPacketHead <;> cases extended <;> simp

theorem clearTxRing_eq (cfg : Config) (s : State) :
    clearTxRing cfg s =
      { s with txBufArray := mapFirst cfg.kNumTxDesc clearedTxBuf s.txBufArray,
               txNextDescIndex := 0, txDirtyIndex := 0, txCleanBarrierIndex := 0,
               txNumFreeDesc := cfg.kNumTxDesc,
               trace := s.trace ++ txReleases (s.txBufArray.take cfg.kNumTxDesc) } := by
  simp [clearTxRing, forLoop_clearTxSlot]

theorem clearRxRing_eq (cfg : Config) (s : State) :
    clearRxRing cfg s =
      { s with rxDescArray :=
                 s.rxDescArray.map (restoredDescs cfg cfg.kNumRxDesc s.rxBufArray),
               rxCleanedCount := 0, rxNextDescIndex := 0 } := by
  unfold clearRxRing
  cases hd : s.rxDescArray with
  | none => simp [hd]
  | some descs => simp [forLoop_restoreRxSlot cfg _ s descs hd]

theorem clearDescriptors_eq (cfg : Config) (s : State) :
    clearDescriptors cfg s =
      { s with txBufArray := mapFirst cfg.kNumTxDesc clearedTxBuf s.txBufArray,
               txNextDescIndex := 0, txDirtyIndex := 0, txCleanBarrierIndex := 0,
               txNumFreeDesc := cfg.kNumTxDesc,
               rxDescArray :=
                 s.rxDescArray.map (restoredDescs cfg cfg.kNumRxDesc s.rxBufArray),
               rxCleanedCount := 0, rxNextDescIndex := 0,
               rxPacketHead := none, rxPacketTail := none, rxPacketSize := 0,
               trace := s.trace ++ txReleases (s.txBufArray.take cfg.kNumTxDesc) ++
                 fragmentRelease cfg.discardExtended s.rxPacketHead } := by
  simp [clearDescriptors, clearTxRing_eq, clearRxRing_eq, discardPacketFragment_eq]

/-- C1. Transmit side of `clearDescriptors`: when no buffer is bound to two transmit
slots, the transmit loop releases each bound buffer exactly once and nothing else, the
only other call of `clearDescriptors` being the release of the pending fragment;
afterwards every transmit slot is empty, the three cursors are 0 and
`txNumFreeDesc = kNumTxDesc`. -/
theorem clearDescriptors_transmit (cfg : Config) (s : State)
    (hlen : s.txBufArray.length = cfg.kNumTxDesc)
    (hexcl : (s.txBufArray.filterMap TxBuf.mbuf).Nodup) :
    ∃ rel : List Op,
      (clearTxRing cfg s).trace = s.trace ++ rel ∧
      (clearDescriptors cfg s).trace =
        s.trace ++ rel ++ fragmentRelease cfg.discardExtended s.rxPacketHead ∧
      (∀ b ∈ s.txBufArray, ∀ m, b.mbuf = some m → rel.count (Op.freePacket m) = 1) ∧
      (∀ op ∈ rel, ∃ b ∈ s.txBufArray, ∃ m, b.mbuf = some m ∧ op = Op.freePacket m) ∧
      (∀ i, i < cfg.kNumTxDesc →
        ∃ b, (clearDescriptors cfg s).txBufArray[i]? = some b ∧ b.mbuf = none) ∧
      (clearDescriptors cfg s).txNextDescIndex = 0 ∧
      (clearDescriptors cfg s).txDirtyIndex = 0 ∧
      (clearDescriptors cfg s).txCleanBarrierIndex = 0 ∧
      (clearDescriptors cfg s).txNumFreeDesc = cfg.kNumTxDesc := by
  have htake : s.txBufArray.take cfg.kNumTxDesc = s.txBufArray :=
    List.take_of_length_le (by omega)
  refine ⟨txReleases s.txBufArray, ?_, ?_, ?_, ?_, ?_, ?_, ?_, ?_, ?_⟩
  · simp [clearTxRing_eq, htake]
  · simp [clearDescriptors_eq, htake]
  · intro b hb m hm
    have hinj : Function.Injective Op.freePacket := fun a c h => by injection h
    unfold txReleases
    rw [List.count_map_of_injective _ _ hinj]
    exact List.count_eq_one_of_mem hexcl (List.mem_filterMap.2 ⟨b, hb, hm⟩)
  · intro op hop
    unfold txReleases at hop
    obtain ⟨m, hm, rfl⟩ := List.mem_map.1 hop
    obtain ⟨b, hb, hbm⟩ := List.mem_filterMap.1 hm
    exact ⟨b, hb, m, hbm, rfl⟩
  · intro i hi
    have hi2 : i < s.txBufArray.length := by omega
    rw [clearDescriptors_eq]
    simp only [getElem?_mapFirst, hi, if_true, List.getElem?_eq_getElem hi2, Option.map_some']
    refine ⟨_, rfl, ?_⟩
    unfold clearedTxBuf
    cases hm : (s.txBufArray[i]).mbuf <;> simp [hm]
  · simp [clearDescriptors_eq]
  · simp [clearDescriptors_eq]
  · simp [clearDescriptors_eq]
  · simp [clearDescriptors_eq]

theorem clearDescriptors_transmit_witness :
    sampleRunning.txBufArray.length = sampleConfig.kNumTxDesc ∧
    (sampleRunning.txBufArray.filterMap TxBuf.mbuf).Nodup ∧
    ∃ rel : List Op,
      (clearTxRing sampleConfig sampleRunning).trace = sampleRunning.trace ++ rel ∧
      (clearDescriptors sampleConfig sampleRunning).trace =
        sampleRunning.trace ++ rel ++
          fragmentRelease sampleConfig.discardExtended sampleRunning.rxPacketHead ∧
      (∀ b ∈ sampleRunning.txBufArray, ∀ m, b.mbuf = some m →
        rel.count (Op.freePacket m) = 1) ∧
      (∀ op ∈ rel, ∃ b ∈ sampleRunning.txBufArray, ∃ m, b.mbuf = some m ∧
        op = Op.freePacket m) ∧
      (∀ i, i < sampleConfig.kNumTxDesc →
        ∃ b, (clearDescriptors sampleConfig sampleRunning).txBufArray[i]? = some b ∧
          b.mbuf = none) ∧
      (clearDescriptors sampleConfig sampleRunning).txNextDescIndex = 0 ∧
      (clearDescriptors sampleConfig sampleRunning).txDirtyIndex = 0 ∧
      (clearDescriptors sampleConfig sampleRunning).txCleanBarrierIndex = 0 ∧
      (clearDescriptors sampleConfig sampleRunning).txNumFreeDesc = sampleConfig.kNumTxDesc :=
  ⟨by decide, by decide,
    clearDescriptors_transmit sampleConfig sampleRunning (by decide) (by decide)⟩

/-- C2. Receive side of `clearDescriptors`: with a non-null receive descriptor array of
arbitrary contents, the receive part makes no kernel call, a buffer bound to a receive
slot (and neither bound to a transmit slot nor the pending fragment) is not released by
`clearDescriptors`, the receive slot metadata is unchanged, and afterwards descriptor `i`
holds the converted cached address of slot `i` with `reserved = 0`, for every
`i < kNumRxDesc`, and `rxNextDescIndex = rxCleanedCount = 0`. -/
theorem clearDescriptors_receive (cfg : Config) (s : State) (descs : List RxDesc)
    (hd : s.rxDescArray = some descs)
    (hdlen : descs.length = cfg.kNumRxDesc)
    (hblen : s.rxBufArray.length = cfg.kNumRxDesc) :
    (clearRxRing cfg (clearTxRing cfg s)).trace = (clearTxRing cfg s).trace ∧
    (∀ b ∈ s.rxBufArray, ∀ m, b.mbuf = some m →
      (∀ t ∈ s.txBufArray, t.mbuf ≠ some m) → s.rxPacketHead ≠ some m →
      Op.freePacket m ∉ (clearDescriptors cfg s).trace.drop s.trace.length ∧
      Op.freePacketEx m ∉ (clearDescriptors cfg s).trace.drop s.trace.length) ∧
    (clearDescriptors cfg s).rxBufArray = s.rxBufArray ∧
    (∃ ds, (clearDescriptors cfg s).rxDescArray = some ds ∧ ds.length = cfg.kNumRxDesc ∧
      ∀ i, i < cfg.kNumRxDesc →
        ∃ b, s.rxBufArray[i]? = some b ∧
          ds[i]? = some { buffer_addr := cfg.OSSwapHostToLittleInt64 b.phyAddr,
                          reserved := 0 }) ∧
    (clearDescriptors cfg s).rxNextDescIndex = 0 ∧
    (clearDescriptors cfg s).rxCleanedCount = 0 := by
  refine ⟨?_, ?_, ?_, ?_, ?_, ?_⟩
  · simp [clearRxRing_eq]
  · intro b _ m _ htx hfrag
    have hdrop : (clearDescriptors cfg s).trace.drop s.trace.length =
        txReleases (s.txBufArray.take cfg.kNumTxDesc) ++
          fragmentRelease cfg.discardExtended s.rxPacketHead := by
      rw [clearDescriptors_eq]
      simp [List.append_assoc]
    rw [hdrop]
    constructor
    · intro hmem
      rcases List.mem_append.1 hmem with h | h
      · unfold txReleases at h
        obtain ⟨m', hm', heq⟩ := List.mem_map.1 h
        obtain ⟨t, ht, htm⟩ := List.mem_filterMap.1 hm'
        injection heq with heq
        subst heq
        exact htx t (List.mem_of_mem_take ht) htm
      · unfold fragmentRelease at h
        cases hh : s.rxPacketHead with
        | none => simp [hh] at h
        | some x =>
          cases he : cfg.discardExtended <;> simp [hh, he] at h
          subst h
          exact hfrag hh
    · intro hmem
      rcases List.mem_append.1 hmem with h | h
      · unfold txReleases at h
        obtain ⟨m', _, heq⟩ := List.mem_map.1 h
        cases heq
      · unfold fragmentRelease at h
        cases hh : s.rxPacketHead with
        | none => simp [hh] at h
        | some x =>
          cases he : cfg.discardExtended <;> simp [hh, he] at h
          subst h
          exact hfrag hh
  · simp [clearDescriptors_eq]
  · refine ⟨restoredDescs cfg cfg.kNumRxDesc s.rxBufArray descs, ?_, ?_, ?_⟩
    · simp [clearDescriptors_eq, hd]
    · simp [restoredDescs, hdlen]
    · intro i hi
      have hi1 : i < s.rxBufArray.length := by omega
      have hi2 : i < descs.length := by omega
      refine ⟨s.rxBufArray[i], List.getElem?_eq_getElem hi1, ?_⟩
      simp [restoredDescs, List.getElem?_eq_getElem hi1, List.getElem?_eq_getElem hi2, hi]
  · simp [clearDescriptors_eq]
  · simp [clearDescriptors_eq]

theorem clearDescriptors_receive_witness :
    sampleRunning.rxDescArray = some [⟨99, 17⟩, ⟨0, 5⟩] ∧
    [(⟨99, 17⟩ : RxDesc), ⟨0, 5⟩].length = sampleConfig.kNumRxDesc ∧
    sampleRunning.rxBufArray.length = sampleConfig.kNumRxDesc ∧
    (clearRxRing sampleConfig (clearTxRing sampleConfig sampleRunning)).trace = (clearTxRing sampleConfig sampleRunning).trace ∧
    (∀ b ∈ sampleRunning.rxBufArray, ∀ m, b.mbuf = some m →
      (∀ t ∈ sampleRunning.txBufArray, t.mbuf ≠ some m) → sampleRunning.rxPacketHead ≠ some m →
      Op.freePacket m ∉ (clearDescriptors sampleConfig sampleRunning).trace.drop sampleRunning.trace.length ∧
      Op.freePacketEx m ∉ (clearDescriptors sampleConfig sampleRunning).trace.drop sampleRunning.trace.length) ∧
    (clearDescriptors sampleConfig sampleRunning).rxBufArray = sampleRunning.rxBufArray ∧
    (∃ ds, (clearDescriptors sampleConfig sampleRunning).rxDescArray = some ds ∧ ds.length = sampleConfig.kNumRxDesc ∧
      ∀ i, i < sampleConfig.kNumRxDesc →
        ∃ b, sampleRunning.rxBufArray[i]? = some b ∧
          ds[i]? = some { buffer_addr := sampleConfig.OSSwapHostToLittleInt64 b.phyAddr,
                          reserved := 0 }) ∧
    (clearDescriptors sampleConfig sampleRunning).rxNextDescIndex = 0 ∧
    (clearDescriptors sampleConfig sampleRunning).rxCleanedCount = 0 :=
  ⟨by decide, by decide, by decide,
    clearDescriptors_receive sampleConfig sampleRunning [⟨99, 17⟩, ⟨0, 5⟩]
      (by decide) (by decide) (by decide)⟩

theorem forLoop_initTxSlot (n : Nat) (s : State) :
    forLoop n initTxSlot s =
      { s with txBufArray :=
          mapFirst n (fun _ => { mbuf := none, numDescs := 0, pad := 0 }) s.txBufArray } := by
  induction n with
  | zero => simp [forLoop_zero, mapFirst_zero]
  | succ n ih =>
    rw [forLoop_succ, ih]
    unfold initTxSlot
    cases hb : s.txBufArray[n]? with
    | none =>
      have hl : s.txBufArray.length ≤ n := by simpa using hb
      rw [mapFirst_succ_of_none _ _ _ hb]
      simp [List.set_eq_of_length_le, length_mapFirst, hl]
    | some b =>
      rw [mapFirst_succ_of_lt _ _ _ b hb]

theorem forLoop_initRxSlot (n : Nat) (s : State) :
    forLoop n initRxSlot s =
      { s with rxBufArray :=
          mapFirst n (fun _ => { mbuf := none, phyAddr := 0 }) s.rxBufArray } := by
  induction n with
  | zero => simp [forLoop_zero, mapFirst_zero]
  | succ n ih =>
    rw [forLoop_succ, ih]
    unfold initRxSlot
    cases hb : s.rxBufArray[n]? with
    | none =>
      have hl : s.rxBufArray.length ≤ n := by simpa using hb
      rw [mapFirst_succ_of_none _ _ _ hb]
      simp [List.set_eq_of_length_le, length_mapFirst, hl]
    | some b =>
      rw [mapFirst_succ_of_lt _ _ _ b hb]

theorem forLoop_freeRxSlot (n : Nat) (s : State) :
    forLoop n freeRxSlot s =
      { s with rxBufArray := mapFirst n (fun b => { b with mbuf := none }) s.rxBufArray,
               trace := s.trace ++ rxReleases (s.rxBufArray.take n) } := by
  induction n with
  | zero => simp [forLoop_zero, mapFirst_zero, rxReleases]
  | succ n ih =>
    rw [forLoop_succ, ih]
    have hget : (mapFirst n (fun b : RxBuf => { b with mbuf := none }) s.rxBufArray)[n]?
        = s.rxBufArray[n]? := by
      rw [getElem?_mapFirst]; simp
    unfold freeRxSlot
    simp only [hget]
    cases hb : s.rxBufArray[n]? with
    | none =>
      simp [mapFirst_succ_of_none _ _ _ hb, List.take_succ, hb]
    | some b =>
      rw [mapFirst_succ_of_lt _ _ _ b hb]
      cases hm : b.mbuf with
      | none =>
        have hc : ({ b with mbuf := none } : RxBuf) = b := by
          cases b; simp_all
        have hs : (mapFirst n (fun b : RxBuf => { b with mbuf := none }) s.rxBufArray).set n b
            = mapFirst n (fun b : RxBuf => { b with mbuf := none }) s.rxBufArray :=
          set_self_of_getElem? _ _ _ (by rw [hget, hb])
        simp [hc, hs, List.take_succ, hb, rxReleases, hm]
      | some m =>
        simp [List.take_succ, hb, rxReleases, hm]

theorem take_mapFirst {α : Type} (n : Nat) (f : α → α) (l : List α) :
    (mapFirst n f l).take n = (l.take n).map f := by
  apply List.ext_getElem?
  intro j
  simp only [List.getElem?_take, getElem?_mapFirst, List.getElem?_map]
  by_cases hj : j < n <;> simp [hj]

theorem mapFirst_idem {α : Type} (n : Nat) (f : α → α) (l : List α)
    (hf : ∀ x, f (f x) = f x) : mapFirst n f (mapFirst n f l) = mapFirst n f l := by
  apply List.ext_getElem?
  intro j
  simp only [getElem?_mapFirst]
  by_cases hj : j < n
  · cases l[j]? <;> simp [hj, hf]
  · simp [hj]

theorem clearedTxBuf_mbuf (b : TxBuf) : (clearedTxBuf b).mbuf = none := by
  unfold clearedTxBuf
  cases hm : b.mbuf <;> simp [hm]

theorem clearedTxBuf_idem (b : TxBuf) : clearedTxBuf (clearedTxBuf b) = clearedTxBuf b := by
  have h := clearedTxBuf_mbuf b
  generalize clearedTxBuf b = c at h
  unfold clearedTxBuf
  simp [h]

theorem txReleases_cleared (l : List TxBuf) : txReleases (l.map clearedTxBuf) = [] := by
  unfold txReleases
  simp only [List.map_eq_nil_iff, List.filterMap_eq_nil_iff]
  intro b hb
  obtain ⟨a, _, rfl⟩ := List.mem_map.1 hb
  exact clearedTxBuf_mbuf a

theorem restoredDescs_idem (cfg : Config) (n : Nat) (bufs : List RxBuf) (descs : List RxDesc) :
    restoredDescs cfg n bufs (restoredDescs cfg n bufs descs) = restoredDescs cfg n bufs descs := by
  apply List.ext_getElem?
  intro j
  simp only [restoredDescs, List.getElem?_mapIdx]
  cases descs[j]? with
  | none => simp
  | some d =>
    by_cases hj : j < n
    · cases bufs[j]? <;> simp [hj]
    · simp [hj]

/-- C9. Idempotence of `clearDescriptors`: for every state, a second call right after the
first leaves the whole state, the trace of kernel calls included, as the first call left
it; so the second call releases no buffer and the six cursors have the same values after
both calls. -/
theorem clearDescriptors_idempotent (cfg : Config) (s : State) :
    clearDescriptors cfg (clearDescriptors cfg s) = clearDescriptors cfg s ∧
    (clearDescriptors cfg (clearDescriptors cfg s)).trace = (clearDescriptors cfg s).trace ∧
    (clearDescriptors cfg (clearDescriptors cfg s)).txNextDescIndex =
      (clearDescriptors cfg s).txNextDescIndex ∧
    (clearDescriptors cfg (clearDescriptors cfg s)).txDirtyIndex =
      (clearDescriptors cfg s).txDirtyIndex ∧
    (clearDescriptors cfg (clearDescriptors cfg s)).txCleanBarrierIndex =
      (clearDescriptors cfg s).txCleanBarrierIndex ∧
    (clearDescriptors cfg (clearDescriptors cfg s)).txNumFreeDesc =
      (clearDescriptors cfg s).txNumFreeDesc ∧
    (clearDescriptors cfg (clearDescriptors cfg s)).rxNextDescIndex =
      (clearDescriptors cfg s).rxNextDescIndex ∧
    (clearDescriptors cfg (clearDescriptors cfg s)).rxCleanedCount =
      (clearDescriptors cfg s).rxCleanedCount := by
  have h : clearDescriptors cfg (clearDescriptors cfg s) = clearDescriptors cfg s := by
    rw [clearDescriptors_eq cfg (clearDescriptors cfg s), clearDescriptors_eq cfg s]
    simp only [take_mapFirst, txReleases_cleared, mapFirst_idem _ _ _ clearedTxBuf_idem,
      fragmentRelease, List.append_nil, State.mk.injEq, true_and, and_true]
    cases s.rxDescArray <;> simp [restoredDescs_idem]
  refine ⟨h, ?_, ?_, ?_, ?_, ?_, ?_, ?_⟩ <;> rw [h]

theorem freeDMADescriptors_eq (cfg : Config) (s : State) :
    freeDMADescriptors cfg s =
      { s with txBufDesc := none,
               txPhyAddr := if s.txBufDesc.isSome then 0 else s.txPhyAddr,
               txDescDmaCmd := none, txMbufCursor := none,
               rxBufDesc := none,
               rxDescArray := if s.rxBufDesc.isSome then none else s.rxDescArray,
               rxPhyAddr := if s.rxBufDesc.isSome then 0 else s.rxPhyAddr,
               rxDescDmaCmd := none, rxMbufCursor := none,
               rxBufArray :=
                 mapFirst cfg.kNumRxDesc (fun b => { b with mbuf := none }) s.rxBufArray,
               trace := s.trace ++ handleReleases s ++
                 rxReleases (s.rxBufArray.take cfg.kNumRxDesc) } := by
  unfold freeDMADescriptors handleReleases
  simp only [forLoop_freeRxSlot]
  obtain ⟨tb, _, tc, _, _, _, _, _, _, tm, rb, _, rc, _, _, _, _, rm, _, _, _, _, _⟩ := s
  cases tb <;> cases tc <;> cases tm <;> cases rb <;> cases rc <;> cases rm <;>
    simp [RELEASE]

theorem freePacket_not_mem_handleReleases (s : State) (m : Nat) :
    Op.freePacket m ∉ handleReleases s := by
  unfold handleReleases
  obtain ⟨tb, _, tc, _, _, _, _, _, _, tm, rb, _, rc, _, _, _, _, rm, _, _, _, _, _⟩ := s
  cases tb <;> cases tc <;> cases tm <;> cases rb <;> cases rc <;> cases rm <;> simp

theorem rxReleases_freed (l : List RxBuf) :
    rxReleases (l.map (fun b => { b with mbuf := none })) = [] := by
  unfold rxReleases
  simp only [List.map_eq_nil_iff, List.filterMap_eq_nil_iff]
  intro b hb
  obtain ⟨a, _, rfl⟩ := List.mem_map.1 hb
  rfl

/-- C6. Teardown of the receive ring: when no buffer is bound to two receive slots,
`freeDMADescriptors` releases every buffer bound to a receive slot exactly once and no
other buffer, leaves every receive slot empty and all six DMA handles `NULL`, and a second
call right afterwards makes no kernel call at all. -/
theorem freeDMADescriptors_teardown (cfg : Config) (s : State)
    (hlen : s.rxBufArray.length = cfg.kNumRxDesc)
    (hexcl : (s.rxBufArray.filterMap RxBuf.mbuf).Nodup) :
    (∀ b ∈ s.rxBufArray, ∀ m, b.mbuf = some m →
      ((freeDMADescriptors cfg s).trace.drop s.trace.length).count (Op.freePacket m) = 1) ∧
    (∀ m, Op.freePacket m ∈ (freeDMADescriptors cfg s).trace.drop s.trace.length →
      ∃ b ∈ s.rxBufArray, b.mbuf = some m) ∧
    (∀ i, i < cfg.kNumRxDesc →
      ∃ b, (freeDMADescriptors cfg s).rxBufArray[i]? = some b ∧ b.mbuf = none) ∧
    (freeDMADescriptors cfg s).txBufDesc = none ∧
    (freeDMADescriptors cfg s).txDescDmaCmd = none ∧
    (freeDMADescriptors cfg s).txMbufCursor = none ∧
    (freeDMADescriptors cfg s).rxBufDesc = none ∧
    (freeDMADescriptors cfg s).rxDescDmaCmd = none ∧
    (freeDMADescriptors cfg s).rxMbufCursor = none ∧
    (freeDMADescriptors cfg (freeDMADescriptors cfg s)).trace =
      (freeDMADescriptors cfg s).trace := by
  have htake : s.rxBufArray.take cfg.kNumRxDesc = s.rxBufArray :=
    List.take_of_length_le (by omega)
  have hdrop : (freeDMADescriptors cfg s).trace.drop s.trace.length =
      handleReleases s ++ rxReleases s.rxBufArray := by
    rw [freeDMADescriptors_eq]
    simp [List.append_assoc, htake]
  refine ⟨?_, ?_, ?_, ?_, ?_, ?_, ?_, ?_, ?_, ?_⟩
  · intro b hb m hm
    have hinj : Function.Injective Op.freePacket := fun a c h => by injection h
    rw [hdrop, List.count_append,
      List.count_eq_zero_of_not_mem (freePacket_not_mem_handleReleases s m), Nat.zero_add]
    unfold rxReleases
    rw [List.count_map_of_injective _ _ hinj]
    exact List.count_eq_one_of_mem hexcl (List.mem_filterMap.2 ⟨b, hb, hm⟩)
  · intro m hmem
    rw [hdrop] at hmem
    rcases List.mem_append.1 hmem with h | h
    · exact absurd h (freePacket_not_mem_handleReleases s m)
    · unfold rxReleases at h
      obtain ⟨m', hm', heq⟩ := List.mem_map.1 h
      injection heq with heq
      subst heq
      obtain ⟨b, hb, hbm⟩ := List.mem_filterMap.1 hm'
      exact ⟨b, hb, hbm⟩
  · intro i hi
    have hi2 : i < s.rxBufArray.length := by omega
    rw [freeDMADescriptors_eq]
    simp only [getElem?_mapFirst, hi, if_true, List.getElem?_eq_getElem hi2, Option.map_some']
    exact ⟨_, rfl, rfl⟩
  · simp [freeDMADescriptors_eq]
  · simp [freeDMADescriptors_eq]
  · simp [freeDMADescriptors_eq]
  · simp [freeDMADescriptors_eq]
  · simp [freeDMADescriptors_eq]
  · simp [freeDMADescriptors_eq]
  · rw [freeDMADescriptors_eq cfg (freeDMADescriptors cfg s)]
    have h1 : handleReleases (freeDMADescriptors cfg s) = [] := by
      rw [freeDMADescriptors_eq]; simp [handleReleases]
    have h2 : rxReleases ((freeDMADescriptors cfg s).rxBufArray.take cfg.kNumRxDesc) = [] := by
      rw [freeDMADescriptors_eq]
      simp only [take_mapFirst]
      exact rxReleases_freed _
    simp [h1, h2]

theorem freeDMADescriptors_teardown_witness :
    sampleRunning.rxBufArray.length = sampleConfig.kNumRxDesc ∧
    (sampleRunning.rxBufArray.filterMap RxBuf.mbuf).Nodup ∧
    (∀ b ∈ sampleRunning.rxBufArray, ∀ m, b.mbuf = some m →
      ((freeDMADescriptors sampleConfig sampleRunning).trace.drop
        sampleRunning.trace.length).count (Op.freePacket m) = 1) ∧
    (∀ m, Op.freePacket m ∈ (freeDMADescriptors sampleConfig sampleRunning).trace.drop
        sampleRunning.trace.length →
      ∃ b ∈ sampleRunning.rxBufArray, b.mbuf = some m) ∧
    (∀ i, i < sampleConfig.kNumRxDesc →
      ∃ b, (freeDMADescriptors sampleConfig sampleRunning).rxBufArray[i]? = some b ∧
        b.mbuf = none) ∧
    (freeDMADescriptors sampleConfig sampleRunning).txBufDesc = none ∧
    (freeDMADescriptors sampleConfig sampleRunning).txDescDmaCmd = none ∧
    (freeDMADescriptors sampleConfig sampleRunning).txMbufCursor = none ∧
    (freeDMADescriptors sampleConfig sampleRunning).rxBufDesc = none ∧
    (freeDMADescriptors sampleConfig sampleRunning).rxDescDmaCmd = none ∧
    (freeDMADescriptors sampleConfig sampleRunning).rxMbufCursor = none ∧
    (freeDMADescriptors sampleConfig (freeDMADescriptors sampleConfig sampleRunning)).trace =
      (freeDMADescriptors sampleConfig sampleRunning).trace :=
  ⟨by decide, by decide,
    freeDMADescriptors_teardown sampleConfig sampleRunning (by decide) (by decide)⟩

/-- C7. On a running ring `freeDMADescriptors` un-prepares and releases each buffer memory
descriptor (`complete`, `release`) before it calls `clearMemoryDescriptor` on the DMA
command bound to it: the region is freed first and the address resolution is reversed
afterwards, for the transmit and for the receive region. The error unwind of
`setupDMADescriptors` does it the other way round: `clearMemoryDescriptor` first, then
`complete` and `release`. -/
theorem freeDMADescriptors_frees_region_before_unbinding :
    (freeDMADescriptors sampleConfig sampleRunning).trace =
      [Op.complete 1, Op.bufDescRelease 1, Op.clearMemoryDescriptor 2, Op.dmaCmdRelease 2,
       Op.cursorRelease 3,
       Op.complete 4, Op.bufDescRelease 4, Op.clearMemoryDescriptor 5, Op.dmaCmdRelease 5,
       Op.cursorRelease 6,
       Op.freePacket 100, Op.freePacket 101] ∧
    (setupDMADescriptors sampleConfig sampleEnvMisaligned sampleIdle).2.trace.drop 12 =
      [Op.freePacket 100, Op.freePacket 101, Op.cursorRelease 6,
       Op.clearMemoryDescriptor 5, Op.dmaCmdRelease 5, Op.complete 4, Op.bufDescRelease 4,
       Op.cursorRelease 3,
       Op.clearMemoryDescriptor 2, Op.dmaCmdRelease 2, Op.complete 1, Op.bufDescRelease 1] := by
  decide

theorem filterMap_mbuf_of_tail_empty (l : List RxBuf) (a : Nat)
    (hnone : ∀ j b, a ≤ j → l[j]? = some b → b.mbuf = none) :
    l.filterMap RxBuf.mbuf = (l.take a).filterMap RxBuf.mbuf := by
  conv_lhs => rw [← List.take_append_drop a l]
  rw [List.filterMap_append]
  have : (l.drop a).filterMap RxBuf.mbuf = [] := by
    rw [List.filterMap_eq_nil_iff]
    intro b hb
    obtain ⟨j, hj⟩ := List.mem_iff_getElem?.1 hb
    rw [List.getElem?_drop] at hj
    exact hnone (a + j) b (by omega) hj
  rw [this, List.append_nil]

theorem take_succ_modify (l : List RxBuf) (a : Nat) (f : RxBuf → RxBuf) (h : a < l.length) :
    (l.modify f a).take (a + 1) = l.take a ++ [f l[a]] := by
  rw [List.take_succ, List.take_modify,
    List.modify_eq_self (by simp [List.length_take]), List.getElem?_modify_eq,
    List.getElem?_eq_getElem h]
  rfl

theorem tail_empty_modify (l : List RxBuf) (a : Nat) (f : RxBuf → RxBuf)
    (hnone : ∀ j b, a ≤ j → l[j]? = some b → b.mbuf = none) :
    ∀ j b, a + 1 ≤ j → (l.modify f a)[j]? = some b → b.mbuf = none := by
  intro j b hj hb
  rw [List.getElem?_modify_ne _ _ (by omega)] at hb
  exact hnone j b (by omega) hb

theorem allocRxBuffers_spec (cfg : Config) (env : Env) :
    ∀ (n a : Nat) (s : State), s.rxBufArray.length = a + n →
      (∀ j b, a ≤ j → s.rxBufArray[j]? = some b → b.mbuf = none) →
      (allocRxBuffers cfg env (List.range' a n) s).1 = populationSucceeds env s.allocCalls n ∧
      ∃ arr descs calls,
        (allocRxBuffers cfg env (List.range' a n) s).2 =
          { s with rxBufArray := arr, rxDescArray := descs,
                   trace := s.trace ++
                     (acquiredBuffers env s.allocCalls n).map Op.allocatePacket,
                   allocCalls := calls } ∧
        arr.length = a + n ∧
        arr.filterMap RxBuf.mbuf =
          (s.rxBufArray.take a).filterMap RxBuf.mbuf ++ acquiredBuffers env s.allocCalls n := by
  intro n
  induction n with
  | zero =>
    intro a s hlen hnone
    refine ⟨by simp [allocRxBuffers, populationSucceeds], s.rxBufArray, s.rxDescArray,
      s.allocCalls, by simp [allocRxBuffers, acquiredBuffers], hlen, ?_⟩
    simp [acquiredBuffers, ← filterMap_mbuf_of_tail_empty _ _ hnone]
  | succ n ih =>
    intro a s hlen hnone
    have ha : a < s.rxBufArray.length := by omega
    rw [List.range'_succ]
    cases hm : env.allocatePacket s.allocCalls with
    | none =>
      refine ⟨by simp [allocRxBuffers, populationSucceeds, hm], s.rxBufArray, s.rxDescArray,
        s.allocCalls + 1, by simp [allocRxBuffers, acquiredBuffers, hm], hlen, ?_⟩
      simp [acquiredBuffers, hm, ← filterMap_mbuf_of_tail_empty _ _ hnone]
    | some m =>
      by_cases hrej : segmentRejected (env.getPhysicalSegments m) = true
      · refine ⟨by simp [allocRxBuffers, populationSucceeds, hm, hrej],
          s.rxBufArray.modify (fun b => { b with mbuf := some m }) a, s.rxDescArray,
          s.allocCalls + 1, by simp [allocRxBuffers, acquiredBuffers, hm, hrej],
          by simp [hlen], ?_⟩
        rw [filterMap_mbuf_of_tail_empty _ (a + 1) (tail_empty_modify _ _ _ hnone),
          take_succ_modify _ _ _ ha]
        simp [acquiredBuffers, hm, hrej]
      · have hrej2 : segmentRejected (env.getPhysicalSegments m) = false := by
          simpa using hrej
        have hnone2 : ∀ j b, a + 1 ≤ j →
            ((s.rxBufArray.modify (fun b => { b with mbuf := some m }) a).modify
              (fun b => { b with phyAddr := (env.getPhysicalSegments m).2 }) a)[j]? = some b →
            b.mbuf = none := by
          intro j b hj hb
          rw [List.getElem?_modify_ne _ _ (by omega),
            List.getElem?_modify_ne _ _ (by omega)] at hb
          exact hnone j b (by omega) hb
        have hstep := ih (a + 1)
          { s with
            trace := s.trace ++ [Op.allocatePacket m],
            allocCalls := s.allocCalls + 1,
            rxBufArray :=
              (s.rxBufArray.modify (fun b => { b with mbuf := some m }) a).modify
                (fun b => { b with phyAddr := (env.getPhysicalSegments m).2 }) a,
            rxDescArray := s.rxDescArray.map (fun descs => descs.set a
              { buffer_addr := cfg.OSSwapHostToLittleInt64 (env.getPhysicalSegments m).2,
                reserved := 0 }) }
          (by simp; omega) hnone2
        obtain ⟨hflag, arr, descs, calls, heq, hl, hfm⟩ := hstep
        refine ⟨?_, arr, descs, calls, ?_, by omega, ?_⟩
        · simp only [allocRxBuffers, hm, hrej2]
          simpa [populationSucceeds, hm, hrej2] using hflag
        · simp only [allocRxBuffers, hm, hrej2]
          simpa [acquiredBuffers, hm, hrej2, List.append_assoc] using heq
        · rw [hfm]
          simp only [List.modify_modify_eq, take_succ_modify _ _ _ ha]
          simp [acquiredBuffers, hm, hrej2]

theorem segmentRejected_eq_false (seg : Nat × Nat) :
    segmentRejected seg = false ↔ seg.1 = 1 ∧ seg.2 &&& 0x07ff = 0 := by
  unfold segmentRejected
  simp

theorem allocRxBuffers_populated (cfg : Config) (env : Env) :
    ∀ (n a : Nat) (s : State) (ds : List RxDesc), s.rxBufArray.length = a + n →
      s.rxDescArray = some ds → ds.length = a + n →
      (allocRxBuffers cfg env (List.range' a n) s).1 = true →
      ∃ ds', (allocRxBuffers cfg env (List.range' a n) s).2.rxDescArray = some ds' ∧
        ds'.length = a + n ∧
        (allocRxBuffers cfg env (List.range' a n) s).2.rxBufArray.length = a + n ∧
        (∀ i, i < a →
          (allocRxBuffers cfg env (List.range' a n) s).2.rxBufArray[i]? = s.rxBufArray[i]? ∧
          ds'[i]? = ds[i]?) ∧
        (∀ i, a ≤ i → i < a + n → ∃ m loc,
          (allocRxBuffers cfg env (List.range' a n) s).2.rxBufArray[i]? =
            some { mbuf := some m, phyAddr := loc } ∧
          env.getPhysicalSegments m = (1, loc) ∧ loc &&& 0x07ff = 0 ∧
          ds'[i]? = some { buffer_addr := cfg.OSSwapHostToLittleInt64 loc, reserved := 0 }) := by
  intro n
  induction n with
  | zero =>
    intro a s ds hlen hd hdl _
    refine ⟨ds, by simp [allocRxBuffers, hd], hdl, by simp [allocRxBuffers, hlen], ?_, ?_⟩
    · intro i _; simp [allocRxBuffers]
    · intro i h1 h2; omega
  | succ n ih =>
    intro a s ds hlen hd hdl hok
    have ha : a < s.rxBufArray.length := by omega
    rw [List.range'_succ] at hok ⊢
    cases hm : env.allocatePacket s.allocCalls with
    | none => simp [allocRxBuffers, hm] at hok
    | some m =>
      by_cases hrej : segmentRejected (env.getPhysicalSegments m) = true
      · simp [allocRxBuffers, hm, hrej] at hok
      · have hrej2 : segmentRejected (env.getPhysicalSegments m) = false := by
          simpa using hrej
        obtain ⟨hseg1, hseg2⟩ := (segmentRejected_eq_false _).1 hrej2
        simp only [allocRxBuffers, hm, hrej2, Bool.false_eq_true, ↓reduceIte] at hok ⊢
        have hstep := ih (a + 1) _
          (ds.set a { buffer_addr := cfg.OSSwapHostToLittleInt64 (env.getPhysicalSegments m).2,
                      reserved := 0 })
          (by simp; omega) (by simp [hd]) (by simp; omega) hok
        obtain ⟨ds', hd', hdl', hbl', hlow, hhigh⟩ := hstep
        refine ⟨ds', hd', by omega, by omega, ?_, ?_⟩
        · intro i hi
          obtain ⟨h1, h2⟩ := hlow i (by omega)
          refine ⟨?_, ?_⟩
          · rw [h1]
            simp only [List.getElem?_modify_ne _ _ (show a ≠ i by omega)]
          · rw [h2, List.getElem?_set_ne (show a ≠ i by omega)]
        · intro i hi1 hi2
          by_cases hia : i = a
          · subst hia
            obtain ⟨h1, h2⟩ := hlow i (by omega)
            refine ⟨m, (env.getPhysicalSegments m).2, ?_, ?_, hseg2, ?_⟩
            · rw [h1]
              simp [List.getElem?_modify_eq, List.getElem?_eq_getElem ha]
            · exact Prod.ext hseg1 rfl
            · rw [h2, List.getElem?_set_self (by omega)]
          · exact hhigh i (by omega) (by omega)

theorem allocSpare_fst (env : Env) (n : Nat) (s : State) (l : List (Option Nat)) :
    ∃ ops calls, (allocSpare env n (s, l)).1 =
      { s with trace := s.trace ++ ops, allocCalls := calls } := by
  induction n with
  | zero => exact ⟨[], s.allocCalls, by simp [allocSpare]⟩
  | succ n ih =>
    obtain ⟨ops, calls, h⟩ := ih
    cases hm : env.allocatePacket calls with
    | none => exact ⟨ops, calls + 1, by simp [allocSpare, h, hm]⟩
    | some m =>
      exact ⟨ops ++ [Op.allocatePacket m], calls + 1, by simp [allocSpare, h, hm, emit]⟩

theorem forLoop_freeSpare (spare : List (Option Nat)) (n : Nat) (s : State) :
    ∃ ops, forLoop n (freeSpare spare) s = { s with trace := s.trace ++ ops } := by
  induction n with
  | zero => exact ⟨[], by simp [forLoop_zero]⟩
  | succ n ih =>
    obtain ⟨ops, h⟩ := ih
    rw [forLoop_succ, h]
    unfold freeSpare
    rcases hsp : spare[n]? with _ | (_ | m)
    · exact ⟨ops, by simp⟩
    · exact ⟨ops, by simp⟩
    · exact ⟨ops ++ [Op.freePacket m], by simp [emit]⟩

theorem spare_loops (env : Env) (n : Nat) (s : State) :
    ∃ ops calls,
      forLoop n (freeSpare (allocSpare env n (s, [])).2) (allocSpare env n (s, [])).1 =
        { s with trace := s.trace ++ ops, allocCalls := calls } := by
  obtain ⟨ops1, calls, h1⟩ := allocSpare_fst env n s []
  obtain ⟨ops2, h2⟩ := forLoop_freeSpare (allocSpare env n (s, [])).2 n
    (allocSpare env n (s, [])).1
  refine ⟨ops1 ++ ops2, calls, ?_⟩
  rw [h2, h1]
  simp

theorem setup_eq_population (cfg : Config) (env : Env) (s : State)
    (tb tc ta tm rb rc ra rm : Nat)
    (h1 : env.txBufDescAlloc = some tb) (h2 : env.txPrepare = true)
    (h3 : env.txDmaCmdAlloc = some tc) (h4 : env.txSetMemoryDescriptor = true)
    (h5 : env.txGen64IOVMSegments = some ta) (h6 : env.txCursorAlloc = some tm)
    (h7 : env.rxBufDescAlloc = some rb) (h8 : env.rxPrepare = true)
    (h9 : env.rxDmaCmdAlloc = some rc) (h10 : env.rxSetMemoryDescriptor = true)
    (h11 : env.rxGen64IOVMSegments = some ra) (h12 : env.rxCursorAlloc = some rm) :
    setupDMADescriptors cfg env s =
      match allocRxBuffers cfg env (List.range cfg.kNumRxDesc)
          (beforePopulation cfg tb tc ta tm rb rc ra rm s) with
      | (false, s17) => (false, error10 cfg s17)
      | (true, s17) =>
        (true, forLoop cfg.kRxNumSpareMbufs
          (freeSpare (allocSpare env cfg.kRxNumSpareMbufs (s17, [])).2)
          (allocSpare env cfg.kRxNumSpareMbufs (s17, [])).1) := by
  unfold setupDMADescriptors
  simp only [h1, h2, h3, h4, h5, h6, h7, h8, h9, h10, h11, h12, Bool.not_true,
    Bool.false_eq_true, ↓reduceIte, emit, forLoop_initTxSlot, forLoop_initRxSlot,
    beforePopulation, setupSteps, List.append_assoc, List.cons_append, List.nil_append]

theorem beforePopulation_slots_empty (cfg : Config) (tb tc ta tm rb rc ra rm : Nat) (s : State)
    (hlen : s.rxBufArray.length = cfg.kNumRxDesc) :
    ∀ j b, 0 ≤ j → (beforePopulation cfg tb tc ta tm rb rc ra rm s).rxBufArray[j]? = some b →
      b.mbuf = none := by
  intro j b _ hb
  simp only [beforePopulation, getElem?_mapFirst] at hb
  by_cases hj : j < cfg.kNumRxDesc
  · have hj2 : j < s.rxBufArray.length := by omega
    simp [hj, List.getElem?_eq_getElem hj2] at hb
    rw [← hb]
  · have : s.rxBufArray[j]? = none := by simp; omega
    simp [hj, this] at hb

theorem setup_population (cfg : Config) (env : Env) (s : State)
    (tb tc ta tm rb rc ra rm : Nat)
    (h1 : env.txBufDescAlloc = some tb) (h2 : env.txPrepare = true)
    (h3 : env.txDmaCmdAlloc = some tc) (h4 : env.txSetMemoryDescriptor = true)
    (h5 : env.txGen64IOVMSegments = some ta) (h6 : env.txCursorAlloc = some tm)
    (h7 : env.rxBufDescAlloc = some rb) (h8 : env.rxPrepare = true)
    (h9 : env.rxDmaCmdAlloc = some rc) (h10 : env.rxSetMemoryDescriptor = true)
    (h11 : env.rxGen64IOVMSegments = some ra) (h12 : env.rxCursorAlloc = some rm)
    (hlen : s.rxBufArray.length = cfg.kNumRxDesc) :
    (setupDMADescriptors cfg env s).1 = populationSucceeds env s.allocCalls cfg.kNumRxDesc ∧
    ∃ arr descs calls,
      arr = (allocRxBuffers cfg env (List.range cfg.kNumRxDesc)
        (beforePopulation cfg tb tc ta tm rb rc ra rm s)).2.rxBufArray ∧
      descs = (allocRxBuffers cfg env (List.range cfg.kNumRxDesc)
        (beforePopulation cfg tb tc ta tm rb rc ra rm s)).2.rxDescArray ∧
      arr.length = cfg.kNumRxDesc ∧
      arr.filterMap RxBuf.mbuf = acquiredBuffers env s.allocCalls cfg.kNumRxDesc ∧
      (populationSucceeds env s.allocCalls cfg.kNumRxDesc = true →
        ∃ ops calls', (setupDMADescriptors cfg env s).2 =
          { beforePopulation cfg tb tc ta tm rb rc ra rm s with
            rxBufArray := arr, rxDescArray := descs,
            trace := s.trace ++ setupSteps tb tc tm rb rc rm ++
              (acquiredBuffers env s.allocCalls cfg.kNumRxDesc).map Op.allocatePacket ++ ops,
            allocCalls := calls' }) ∧
      (populationSucceeds env s.allocCalls cfg.kNumRxDesc = false →
        (setupDMADescriptors cfg env s).2 =
          error10 cfg { beforePopulation cfg tb tc ta tm rb rc ra rm s with
            rxBufArray := arr, rxDescArray := descs,
            trace := s.trace ++ setupSteps tb tc tm rb rc rm ++
              (acquiredBuffers env s.allocCalls cfg.kNumRxDesc).map Op.allocatePacket,
            allocCalls := calls }) := by
  have hS : (beforePopulation cfg tb tc ta tm rb rc ra rm s).rxBufArray.length =
      0 + cfg.kNumRxDesc := by
    simp [beforePopulation, length_mapFirst, hlen]
  obtain ⟨hflag, arr, descs, calls, heq, hal, hfm⟩ :=
    allocRxBuffers_spec cfg env cfg.kNumRxDesc 0 _ hS
      (beforePopulation_slots_empty cfg tb tc ta tm rb rc ra rm s hlen)
  rw [← List.range_eq_range'] at hflag heq
  have hcalls : (beforePopulation cfg tb tc ta tm rb rc ra rm s).allocCalls = s.allocCalls := rfl
  have htrace : (beforePopulation cfg tb tc ta tm rb rc ra rm s).trace =
      s.trace ++ setupSteps tb tc tm rb rc rm := rfl
  rw [hcalls] at hflag heq hfm
  rw [htrace] at heq
  have hsetup := setup_eq_population cfg env s tb tc ta tm rb rc ra rm
    h1 h2 h3 h4 h5 h6 h7 h8 h9 h10 h11 h12
  cases hp : populationSucceeds env s.allocCalls cfg.kNumRxDesc with
  | false =>
    rw [hp] at hflag
    have hpair : allocRxBuffers cfg env (List.range cfg.kNumRxDesc)
        (beforePopulation cfg tb tc ta tm rb rc ra rm s) = (false, _) :=
      Prod.ext hflag heq
    rw [hpair] at hsetup
    refine ⟨by rw [hsetup], arr, descs, calls, by rw [heq], by rw [heq], by omega,
      by simpa using hfm, ?_, ?_⟩
    · intro h; cases h
    intro _
    rw [hsetup]
  | true =>
    rw [hp] at hflag
    have hpair : allocRxBuffers cfg env (List.range cfg.kNumRxDesc)
        (beforePopulation cfg tb tc ta tm rb rc ra rm s) = (true, _) :=
      Prod.ext hflag heq
    rw [hpair] at hsetup
    refine ⟨by rw [hsetup], arr, descs, calls, by rw [heq], by rw [heq], by omega,
      by simpa using hfm, ?_, fun h => by cases h⟩
    intro _
    obtain ⟨ops, calls', hsp⟩ := spare_loops env cfg.kRxNumSpareMbufs
      { beforePopulation cfg tb tc ta tm rb rc ra rm s with
        rxBufArray := arr, rxDescArray := descs,
        trace := s.trace ++ setupSteps tb tc tm rb rc rm ++
          (acquiredBuffers env s.allocCalls cfg.kNumRxDesc).map Op.allocatePacket,
        allocCalls := calls }
    refine ⟨ops, calls', ?_⟩
    rw [hsetup]
    simp only [hsp]

theorem mem_mapFirst {α : Type} (n : Nat) (f : α → α) (l : List α) (h : l.length ≤ n) (b : α)
    (hb : b ∈ mapFirst n f l) : ∃ a ∈ l, b = f a := by
  rw [mapFirst_of_length_le n f l h] at hb
  obtain ⟨a, ha, rfl⟩ := List.mem_map.1 hb
  exact ⟨a, ha, rfl⟩

theorem setup_failure (cfg : Config) (env : Env) (s : State)
    (hlen : s.rxBufArray.length = cfg.kNumRxDesc)
    (h : (setupDMADescriptors cfg env s).1 = false) :
    ∃ tb tc tm rb rc rm n bufs,
      n ≤ 10 ∧ (n < 10 → bufs = []) ∧
      (regionStepsSucceed env = true →
        n = 10 ∧ bufs = acquiredBuffers env s.allocCalls cfg.kNumRxDesc) ∧
      (setupDMADescriptors cfg env s).2.trace =
        s.trace ++ (setupSteps tb tc tm rb rc rm).take n ++ bufs.map Op.allocatePacket ++
          bufs.map Op.freePacket ++
          ((setupSteps tb tc tm rb rc rm).take n).reverse.filterMap undo ∧
      (setupDMADescriptors cfg env s).2.txBufDesc = none ∧
      (s.txDescDmaCmd = none → (setupDMADescriptors cfg env s).2.txDescDmaCmd = none) ∧
      (s.txMbufCursor = none → (setupDMADescriptors cfg env s).2.txMbufCursor = none) ∧
      (s.rxBufDesc = none → (setupDMADescriptors cfg env s).2.rxBufDesc = none) ∧
      (s.rxDescArray = none → (setupDMADescriptors cfg env s).2.rxDescArray = none) ∧
      (s.rxDescDmaCmd = none → (setupDMADescriptors cfg env s).2.rxDescDmaCmd = none) ∧
      (s.rxMbufCursor = none → (setupDMADescriptors cfg env s).2.rxMbufCursor = none) ∧
      ((n = 10 ∨ ∀ b ∈ s.rxBufArray, b.mbuf = none) →
        ∀ b ∈ (setupDMADescriptors cfg env s).2.rxBufArray, b.mbuf = none) := by
  cases h1 : env.txBufDescAlloc with
  | none =>
    refine ⟨0, 0, 0, 0, 0, 0, 0, [], ?_⟩
    unfold setupDMADescriptors
    simp only [h1]
    simp [regionStepsSucceed, h1]
  | some tb =>
  cases h2 : env.txPrepare with
  | false =>
    refine ⟨tb, 0, 0, 0, 0, 0, 1, [], ?_⟩
    unfold setupDMADescriptors
    simp only [h1, h2, Bool.not_true, Bool.not_false, Bool.false_eq_true, ↓reduceIte]
    simp [regionStepsSucceed, h1, h2, setupSteps, undo, error1, emit]
  | true =>
  cases h3 : env.txDmaCmdAlloc with
  | none =>
    refine ⟨tb, 0, 0, 0, 0, 0, 2, [], ?_⟩
    unfold setupDMADescriptors
    simp only [h1, h2, h3, Bool.not_true, Bool.not_false, Bool.false_eq_true, ↓reduceIte]
    simp [regionStepsSucceed, h1, h2, h3, setupSteps, undo, error1, error2, emit]
  | some tc =>
  cases h4 : env.txSetMemoryDescriptor with
  | false =>
    refine ⟨tb, tc, 0, 0, 0, 0, 3, [], ?_⟩
    unfold setupDMADescriptors
    simp only [h1, h2, h3, h4, Bool.not_true, Bool.not_false, Bool.false_eq_true, ↓reduceIte]
    simp [regionStepsSucceed, h1, h2, h3, h4, setupSteps, undo, error1, error2, error3,
      RELEASE, emit]
  | true =>
  cases h5 : env.txGen64IOVMSegments with
  | none =>
    refine ⟨tb, tc, 0, 0, 0, 0, 4, [], ?_⟩
    unfold setupDMADescriptors
    simp only [h1, h2, h3, h4, h5, Bool.not_true, Bool.not_false, Bool.false_eq_true,
      ↓reduceIte]
    simp [regionStepsSucceed, h1, h2, h3, h4, h5, setupSteps, undo, error1, error2, error3,
      error4, RELEASE, emit]
  | some ta =>
  cases h6 : env.txCursorAlloc with
  | none =>
    refine ⟨tb, tc, 0, 0, 0, 0, 4, [], ?_⟩
    unfold setupDMADescriptors
    simp only [h1, h2, h3, h4, h5, h6, Bool.not_true, Bool.not_false, Bool.false_eq_true,
      ↓reduceIte]
    simp [regionStepsSucceed, h1, h2, h3, h4, h5, h6, setupSteps, undo, error1, error2, error3, error4, error5, error6, error7, error8, error9, RELEASE, emit,
      forLoop_initTxSlot, forLoop_initRxSlot]
  | some tm =>
  cases h7 : env.rxBufDescAlloc with
  | none =>
    refine ⟨tb, tc, tm, 0, 0, 0, 5, [], ?_⟩
    unfold setupDMADescriptors
    simp only [h1, h2, h3, h4, h5, h6, h7, Bool.not_true, Bool.not_false, Bool.false_eq_true,
      ↓reduceIte]
    simp [regionStepsSucceed, h1, h2, h3, h4, h5, h6, h7, setupSteps, undo, error1, error2, error3, error4, error5, error6, error7, error8, error9, RELEASE, emit,
      forLoop_initTxSlot, forLoop_initRxSlot]
  | some rb =>
  cases h8 : env.rxPrepare with
  | false =>
    refine ⟨tb, tc, tm, rb, 0, 0, 6, [], ?_⟩
    unfold setupDMADescriptors
    simp only [h1, h2, h3, h4, h5, h6, h7, h8, Bool.not_true, Bool.not_false, Bool.false_eq_true,
      ↓reduceIte]
    simp [regionStepsSucceed, h1, h2, h3, h4, h5, h6, h7, h8, setupSteps, undo, error1, error2, error3, error4, error5, error6, error7, error8, error9, RELEASE, emit,
      forLoop_initTxSlot, forLoop_initRxSlot]
  | true =>
  cases h9 : env.rxDmaCmdAlloc with
  | none =>
    refine ⟨tb, tc, tm, rb, 0, 0, 7, [], ?_⟩
    unfold setupDMADescriptors
    simp only [h1, h2, h3, h4, h5, h6, h7, h8, h9, Bool.not_true, Bool.not_false, Bool.false_eq_true,
      ↓reduceIte]
    simp [regionStepsSucceed, h1, h2, h3, h4, h5, h6, h7, h8, h9, setupSteps, undo, error1, error2, error3, error4, error5, error6, error7, error8, error9, RELEASE, emit,
      forLoop_initTxSlot, forLoop_initRxSlot]
  | some rc =>
  cases h10 : env.rxSetMemoryDescriptor with
  | false =>
    refine ⟨tb, tc, tm, rb, rc, 0, 8, [], ?_⟩
    unfold setupDMADescriptors
    simp only [h1, h2, h3, h4, h5, h6, h7, h8, h9, h10, Bool.not_true, Bool.not_false, Bool.false_eq_true,
      ↓reduceIte]
    simp [regionStepsSucceed, h1, h2, h3, h4, h5, h6, h7, h8, h9, h10, setupSteps, undo, error1, error2, error3, error4, error5, error6, error7, error8, error9, RELEASE, emit,
      forLoop_initTxSlot, forLoop_initRxSlot]
  | true =>
  cases h11 : env.rxGen64IOVMSegments with
  | none =>
    refine ⟨tb, tc, tm, rb, rc, 0, 9, [], ?_⟩
    unfold setupDMADescriptors
    simp only [h1, h2, h3, h4, h5, h6, h7, h8, h9, h10, h11, Bool.not_true, Bool.not_false, Bool.false_eq_true,
      ↓reduceIte]
    simp [regionStepsSucceed, h1, h2, h3, h4, h5, h6, h7, h8, h9, h10, h11, setupSteps, undo, error1, error2, error3, error4, error5, error6, error7, error8, error9, RELEASE, emit,
      forLoop_initTxSlot, forLoop_initRxSlot]
  | some ra =>
  cases h12 : env.rxCursorAlloc with
  | none =>
    refine ⟨tb, tc, tm, rb, rc, 0, 9, [], ?_⟩
    unfold setupDMADescriptors
    simp only [h1, h2, h3, h4, h5, h6, h7, h8, h9, h10, h11, h12, Bool.not_true, Bool.not_false, Bool.false_eq_true,
      ↓reduceIte]
    simp [regionStepsSucceed, h1, h2, h3, h4, h5, h6, h7, h8, h9, h10, h11, h12, setupSteps, undo, error1, error2, error3, error4, error5, error6, error7, error8, error9, RELEASE, emit,
      forLoop_initTxSlot, forLoop_initRxSlot]
    intro hall b hb
    obtain ⟨a, _, rfl⟩ := mem_mapFirst _ _ _ (by omega) b hb
    rfl
  | some rm =>
  obtain ⟨hflag, arr, descs, calls, _, _, hal, hfm, _, hfail⟩ :=
    setup_population cfg env s tb tc ta tm rb rc ra rm h1 h2 h3 h4 h5 h6 h7 h8 h9 h10 h11 h12
      hlen
  have hp : populationSucceeds env s.allocCalls cfg.kNumRxDesc = false := by
    rw [← hflag]; exact h
  have hfin := hfail hp
  have htake : arr.take cfg.kNumRxDesc = arr := List.take_of_length_le (by omega)
  refine ⟨tb, tc, tm, rb, rc, rm, 10, acquiredBuffers env s.allocCalls cfg.kNumRxDesc,
    by omega, by omega, fun _ => ⟨rfl, rfl⟩, ?_, ?_, ?_, ?_, ?_, ?_, ?_, ?_, ?_⟩
  · rw [hfin]
    simp [error10, forLoop_freeRxSlot, htake, rxReleases, hfm, beforePopulation, setupSteps,
      undo, error1, error2, error3, error4, error5, error6, error7, error8, error9, RELEASE,
      emit]
  · rw [hfin]
    simp [error10, forLoop_freeRxSlot, beforePopulation, error1, error2, error3, error4,
      error5, error6, error7, error8, error9, RELEASE, emit]
  · intro _
    rw [hfin]
    simp [error10, forLoop_freeRxSlot, beforePopulation, error1, error2, error3, error4,
      error5, error6, error7, error8, error9, RELEASE, emit]
  · intro _
    rw [hfin]
    simp [error10, forLoop_freeRxSlot, beforePopulation, error1, error2, error3, error4,
      error5, error6, error7, error8, error9, RELEASE, emit]
  · intro _
    rw [hfin]
    simp [error10, forLoop_freeRxSlot, beforePopulation, error1, error2, error3, error4,
      error5, error6, error7, error8, error9, RELEASE, emit]
  · intro _
    rw [hfin]
    simp [error10, forLoop_freeRxSlot, beforePopulation, error1, error2, error3, error4,
      error5, error6, error7, error8, error9, RELEASE, emit]
  · intro _
    rw [hfin]
    simp [error10, forLoop_freeRxSlot, beforePopulation, error1, error2, error3, error4,
      error5, error6, error7, error8, error9, RELEASE, emit]
  · intro _
    rw [hfin]
    simp [error10, forLoop_freeRxSlot, beforePopulation, error1, error2, error3, error4,
      error5, error6, error7, error8, error9, RELEASE, emit]
  · intro _ b hb
    rw [hfin] at hb
    simp only [error10, forLoop_freeRxSlot, beforePopulation, error1, error2, error3, error4,
      error5, error6, error7, error8, error9, RELEASE, emit] at hb
    obtain ⟨a, _, rfl⟩ := mem_mapFirst _ _ _ (by omega) b hb
    rfl

theorem setup_fst (cfg : Config) (env : Env) (s : State)
    (hlen : s.rxBufArray.length = cfg.kNumRxDesc) :
    (setupDMADescriptors cfg env s).1 =
      (regionStepsSucceed env && populationSucceeds env s.allocCalls cfg.kNumRxDesc) := by
  cases h1 : env.txBufDescAlloc with
  | none =>
    unfold setupDMADescriptors
    simp only [h1, Bool.not_true, Bool.not_false, Bool.false_eq_true,
      ↓reduceIte]
    simp [regionStepsSucceed, h1]
  | some tb =>
  cases h2 : env.txPrepare with
  | false =>
    unfold setupDMADescriptors
    simp only [h1, h2, Bool.not_true, Bool.not_false, Bool.false_eq_true,
      ↓reduceIte]
    simp [regionStepsSucceed, h1, h2]
  | true =>
  cases h3 : env.txDmaCmdAlloc with
  | none =>
    unfold setupDMADescriptors
    simp only [h1, h2, h3, Bool.not_true, Bool.not_false, Bool.false_eq_true,
      ↓reduceIte]
    simp [regionStepsSucceed, h1, h2, h3]
  | some tc =>
  cases h4 : env.txSetMemoryDescriptor with
  | false =>
    unfold setupDMADescriptors
    simp only [h1, h2, h3, h4, Bool.not_true, Bool.not_false, Bool.false_eq_true,
      ↓reduceIte]
    simp [regionStepsSucceed, h1, h2, h3, h4]
  | true =>
  cases h5 : env.txGen64IOVMSegments with
  | none =>
    unfold setupDMADescriptors
    simp only [h1, h2, h3, h4, h5, Bool.not_true, Bool.not_false, Bool.false_eq_true,
      ↓reduceIte]
    simp [regionStepsSucceed, h1, h2, h3, h4, h5]
  | some ta =>
  cases h6 : env.txCursorAlloc with
  | none =>
    unfold setupDMADescriptors
    simp only [h1, h2, h3, h4, h5, h6, Bool.not_true, Bool.not_false, Bool.false_eq_true,
      ↓reduceIte]
    simp [regionStepsSucceed, h1, h2, h3, h4, h5, h6]
  | some tm =>
  cases h7 : env.rxBufDescAlloc with
  | none =>
    unfold setupDMADescriptors
    simp only [h1, h2, h3, h4, h5, h6, h7, Bool.not_true, Bool.not_false, Bool.false_eq_true,
      ↓reduceIte]
    simp [regionStepsSucceed, h1, h2, h3, h4, h5, h6, h7]
  | some rb =>
  cases h8 : env.rxPrepare with
  | false =>
    unfold setupDMADescriptors
    simp only [h1, h2, h3, h4, h5, h6, h7, h8, Bool.not_true, Bool.not_false, Bool.false_eq_true,
      ↓reduceIte]
    simp [regionStepsSucceed, h1, h2, h3, h4, h5, h6, h7, h8]
  | true =>
  cases h9 : env.rxDmaCmdAlloc with
  | none =>
    unfold setupDMADescriptors
    simp only [h1, h2, h3, h4, h5, h6, h7, h8, h9, Bool.not_true, Bool.not_false, Bool.false_eq_true,
      ↓reduceIte]
    simp [regionStepsSucceed, h1, h2, h3, h4, h5, h6, h7, h8, h9]
  | some rc =>
  cases h10 : env.rxSetMemoryDescriptor with
  | false =>
    unfold setupDMADescriptors
    simp only [h1, h2, h3, h4, h5, h6, h7, h8, h9, h10, Bool.not_true, Bool.not_false, Bool.false_eq_true,
      ↓reduceIte]
    simp [regionStepsSucceed, h1, h2, h3, h4, h5, h6, h7, h8, h9, h10]
  | true =>
  cases h11 : env.rxGen64IOVMSegments with
  | none =>
    unfold setupDMADescriptors
    simp only [h1, h2, h3, h4, h5, h6, h7, h8, h9, h10, h11, Bool.not_true, Bool.not_false, Bool.false_eq_true,
      ↓reduceIte]
    simp [regionStepsSucceed, h1, h2, h3, h4, h5, h6, h7, h8, h9, h10, h11]
  | some ra =>
  cases h12 : env.rxCursorAlloc with
  | none =>
    unfold setupDMADescriptors
    simp only [h1, h2, h3, h4, h5, h6, h7, h8, h9, h10, h11, h12, Bool.not_true, Bool.not_false, Bool.false_eq_true,
      ↓reduceIte]
    simp [regionStepsSucceed, h1, h2, h3, h4, h5, h6, h7, h8, h9, h10, h11, h12]
  | some rm =>
  rw [(setup_population cfg env s tb tc ta tm rb rc ra rm h1 h2 h3 h4 h5 h6 h7 h8 h9 h10 h11 h12
    hlen).1]
  simp [regionStepsSucceed, h1, h2, h3, h4, h5, h6, h7, h8, h9, h10, h11, h12]

theorem regionStepsSucceed_iff (env : Env) :
    regionStepsSucceed env = true ↔
      ∃ tb tc ta tm rb rc ra rm,
        env.txBufDescAlloc = some tb ∧ env.txPrepare = true ∧ env.txDmaCmdAlloc = some tc ∧
        env.txSetMemoryDescriptor = true ∧ env.txGen64IOVMSegments = some ta ∧
        env.txCursorAlloc = some tm ∧ env.rxBufDescAlloc = some rb ∧ env.rxPrepare = true ∧
        env.rxDmaCmdAlloc = some rc ∧ env.rxSetMemoryDescriptor = true ∧
        env.rxGen64IOVMSegments = some ra ∧ env.rxCursorAlloc = some rm := by
  unfold regionStepsSucceed
  simp only [Bool.and_eq_true, Option.isSome_iff_exists]
  constructor
  · rintro ⟨⟨⟨⟨⟨⟨⟨⟨⟨⟨⟨⟨tb, h1⟩, h2⟩, ⟨tc, h3⟩⟩, h4⟩, ⟨ta, h5⟩⟩, ⟨tm, h6⟩⟩, ⟨rb, h7⟩⟩, h8⟩,
      ⟨rc, h9⟩⟩, h10⟩, ⟨ra, h11⟩⟩, ⟨rm, h12⟩⟩
    exact ⟨tb, tc, ta, tm, rb, rc, ra, rm, h1, h2, h3, h4, h5, h6, h7, h8, h9, h10, h11, h12⟩
  · rintro ⟨tb, tc, ta, tm, rb, rc, ra, rm, h1, h2, h3, h4, h5, h6, h7, h8, h9, h10, h11, h12⟩
    exact ⟨⟨⟨⟨⟨⟨⟨⟨⟨⟨⟨⟨tb, h1⟩, h2⟩, ⟨tc, h3⟩⟩, h4⟩, ⟨ta, h5⟩⟩, ⟨tm, h6⟩⟩, ⟨rb, h7⟩⟩, h8⟩,
      ⟨rc, h9⟩⟩, h10⟩, ⟨ra, h11⟩⟩, ⟨rm, h12⟩⟩

theorem setup_success (cfg : Config) (env : Env) (s : State)
    (hlen : s.rxBufArray.length = cfg.kNumRxDesc)
    (h : (setupDMADescriptors cfg env s).1 = true) :
    ∃ tb tc ta tm rb rc ra rm arr descs tr calls,
      (setupDMADescriptors cfg env s).2 =
        { beforePopulation cfg tb tc ta tm rb rc ra rm s with
          rxBufArray := arr, rxDescArray := some descs, trace := tr, allocCalls := calls } ∧
      arr.length = cfg.kNumRxDesc ∧ descs.length = cfg.kNumRxDesc ∧
      ∀ i, i < cfg.kNumRxDesc → ∃ m loc,
        arr[i]? = some { mbuf := some m, phyAddr := loc } ∧
        env.getPhysicalSegments m = (1, loc) ∧ loc &&& 0x07ff = 0 ∧
        descs[i]? = some { buffer_addr := cfg.OSSwapHostToLittleInt64 loc, reserved := 0 } := by
  rw [setup_fst cfg env s hlen, Bool.and_eq_true] at h
  obtain ⟨hreg, hpop⟩ := h
  obtain ⟨tb, tc, ta, tm, rb, rc, ra, rm, h1, h2, h3, h4, h5, h6, h7, h8, h9, h10, h11, h12⟩ :=
    (regionStepsSucceed_iff env).1 hreg
  obtain ⟨_, arr, descs, calls, harr, hdescs, hal, _, hok, _⟩ :=
    setup_population cfg env s tb tc ta tm rb rc ra rm h1 h2 h3 h4 h5 h6 h7 h8 h9 h10 h11 h12
      hlen
  obtain ⟨ops, calls', hfin⟩ := hok hpop
  have hS : (beforePopulation cfg tb tc ta tm rb rc ra rm s).rxBufArray.length =
      0 + cfg.kNumRxDesc := by
    simp [beforePopulation, length_mapFirst, hlen]
  have hflag := (allocRxBuffers_spec cfg env cfg.kNumRxDesc 0 _ hS
      (beforePopulation_slots_empty cfg tb tc ta tm rb rc ra rm s hlen)).1
  have hcalls : (beforePopulation cfg tb tc ta tm rb rc ra rm s).allocCalls = s.allocCalls := rfl
  rw [hcalls, hpop] at hflag
  obtain ⟨ds', hd', hdl', _, _, hhigh⟩ :=
    allocRxBuffers_populated cfg env cfg.kNumRxDesc 0
      (beforePopulation cfg tb tc ta tm rb rc ra rm s)
      (List.replicate cfg.kNumRxDesc ⟨0, 0⟩) hS rfl (by simp) hflag
  rw [← List.range_eq_range'] at hd' hhigh
  rw [← hdescs] at hd'
  rw [← harr] at hhigh
  subst hd'
  refine ⟨tb, tc, ta, tm, rb, rc, ra, rm, arr, ds', _, calls', hfin, hal, by omega, ?_⟩
  intro i hi
  exact hhigh i (by omega) (by omega)

theorem setupSteps_isStepAcquire (tb tc tm rb rc rm : Nat) :
    ∀ op ∈ setupSteps tb tc tm rb rc rm, isStepAcquire op = true := by
  intro op hop
  simp only [setupSteps, List.mem_cons, List.mem_singleton, List.not_mem_nil, or_false] at hop
  rcases hop with h | h | h | h | h | h | h | h | h | h <;> subst h <;> rfl

theorem undo_isRelease (a r : Op) (h : undo a = some r) :
    isRelease r = true ∧ isStepAcquire r = false ∧ acquiredBuffer r = none ∧ undo r = none := by
  cases a <;> simp [undo] at h <;> subst h <;> exact ⟨rfl, rfl, rfl, rfl⟩

theorem isStepAcquire_props (a : Op) (h : isStepAcquire a = true) :
    isRelease a = false ∧ acquiredBuffer a = none := by
  cases a <;> simp [isStepAcquire, undo, acquiredBuffer] at h <;> exact ⟨rfl, rfl⟩

/-- Shape of the calls that a failing `setupDMADescriptors` makes: the acquisitions `acq`
and `bufs`, then the releases. -/
theorem unwind_shape (acq : List Op) (bufs : List Nat)
    (hacq : ∀ op ∈ acq, isStepAcquire op = true) :
    (acq ++ bufs.map Op.allocatePacket ++ bufs.map Op.freePacket ++
        acq.reverse.filterMap undo).filter isStepAcquire = acq ∧
    (acq ++ bufs.map Op.allocatePacket ++ bufs.map Op.freePacket ++
        acq.reverse.filterMap undo).filter isRelease =
      bufs.map Op.freePacket ++ acq.reverse.filterMap undo ∧
    (acq ++ bufs.map Op.allocatePacket ++ bufs.map Op.freePacket ++
        acq.reverse.filterMap undo).filterMap acquiredBuffer = bufs ∧
    (acq ++ bufs.map Op.allocatePacket ++ bufs.map Op.freePacket ++
        acq.reverse.filterMap undo).filterMap undo =
      acq.filterMap undo ++ bufs.map Op.freePacket := by
  have hD : ∀ r ∈ acq.reverse.filterMap undo,
      isRelease r = true ∧ isStepAcquire r = false ∧ acquiredBuffer r = none ∧
        undo r = none := by
    intro r hr
    obtain ⟨a, _, ha⟩ := List.mem_filterMap.1 hr
    exact undo_isRelease a r ha
  have hA1 : acq.filter isStepAcquire = acq := List.filter_eq_self.2 hacq
  have hA2 : acq.filter isRelease = [] :=
    List.filter_eq_nil_iff.2 (fun a ha => by simp [(isStepAcquire_props a (hacq a ha)).1])
  have hA3 : acq.filterMap acquiredBuffer = [] :=
    List.filterMap_eq_nil_iff.2 (fun a ha => (isStepAcquire_props a (hacq a ha)).2)
  have hD1 : (acq.reverse.filterMap undo).filter isStepAcquire = [] :=
    List.filter_eq_nil_iff.2 (fun r hr => by simp [(hD r hr).2.1])
  have hD2 : (acq.reverse.filterMap undo).filter isRelease = acq.reverse.filterMap undo :=
    List.filter_eq_self.2 (fun r hr => (hD r hr).1)
  have hD3 : (acq.reverse.filterMap undo).filterMap acquiredBuffer = [] :=
    List.filterMap_eq_nil_iff.2 (fun r hr => (hD r hr).2.2.1)
  have hD4 : (acq.reverse.filterMap undo).filterMap undo = [] :=
    List.filterMap_eq_nil_iff.2 (fun r hr => (hD r hr).2.2.2)
  have hB1 : (bufs.map Op.allocatePacket).filter isStepAcquire = [] :=
    List.filter_eq_nil_iff.2 (fun r hr => by
      obtain ⟨m, _, rfl⟩ := List.mem_map.1 hr
      simp [isStepAcquire, acquiredBuffer])
  have hB2 : (bufs.map Op.allocatePacket).filter isRelease = [] :=
    List.filter_eq_nil_iff.2 (fun r hr => by
      obtain ⟨m, _, rfl⟩ := List.mem_map.1 hr
      simp [isRelease])
  have hB3 : (bufs.map Op.allocatePacket).filterMap acquiredBuffer = bufs := by
    rw [List.filterMap_map]
    have : (acquiredBuffer ∘ Op.allocatePacket) = some := rfl
    rw [this, List.filterMap_some]
  have hB4 : (bufs.map Op.allocatePacket).filterMap undo = bufs.map Op.freePacket := by
    rw [List.filterMap_map]
    have : (undo ∘ Op.allocatePacket) = some ∘ Op.freePacket := rfl
    rw [this, List.filterMap_eq_map]
  have hC1 : (bufs.map Op.freePacket).filter isStepAcquire = [] :=
    List.filter_eq_nil_iff.2 (fun r hr => by
      obtain ⟨m, _, rfl⟩ := List.mem_map.1 hr
      simp [isStepAcquire, undo])
  have hC2 : (bufs.map Op.freePacket).filter isRelease = bufs.map Op.freePacket :=
    List.filter_eq_self.2 (fun r hr => by
      obtain ⟨m, _, rfl⟩ := List.mem_map.1 hr
      rfl)
  have hC3 : (bufs.map Op.freePacket).filterMap acquiredBuffer = [] :=
    List.filterMap_eq_nil_iff.2 (fun r hr => by
      obtain ⟨m, _, rfl⟩ := List.mem_map.1 hr
      rfl)
  have hC4 : (bufs.map Op.freePacket).filterMap undo = [] :=
    List.filterMap_eq_nil_iff.2 (fun r hr => by
      obtain ⟨m, _, rfl⟩ := List.mem_map.1 hr
      rfl)
  refine ⟨?_, ?_, ?_, ?_⟩
  · simp only [List.filter_append, hA1, hB1, hC1, hD1, List.append_nil]
  · simp only [List.filter_append, hA2, hB2, hC2, hD2, List.append_nil, List.nil_append]
  · simp only [List.filterMap_append, hA3, hB3, hC3, hD3, List.append_nil, List.nil_append]
  · simp only [List.filterMap_append, hB4, hC4, hD4, List.append_nil]

theorem setup_failure_drop (cfg : Config) (env : Env) (s : State)
    (hlen : s.rxBufArray.length = cfg.kNumRxDesc)
    (h : (setupDMADescriptors cfg env s).1 = false) :
    ∃ tb tc tm rb rc rm n bufs,
      (regionStepsSucceed env = true →
        bufs = acquiredBuffers env s.allocCalls cfg.kNumRxDesc) ∧
      (setupDMADescriptors cfg env s).2.trace.drop s.trace.length =
        (setupSteps tb tc tm rb rc rm).take n ++ bufs.map Op.allocatePacket ++
          bufs.map Op.freePacket ++
          ((setupSteps tb tc tm rb rc rm).take n).reverse.filterMap undo := by
  obtain ⟨tb, tc, tm, rb, rc, rm, n, bufs, _, _, hreg, htr, _⟩ :=
    setup_failure cfg env s hlen h
  refine ⟨tb, tc, tm, rb, rc, rm, n, bufs, fun hr => (hreg hr).2, ?_⟩
  rw [htr]
  simp [List.append_assoc]

/-- C8. Reverse-order unwind: whenever some step of `setupDMADescriptors` fails, the
acquisitions made before the failure are a prefix of the ten steps (transmit region,
prepare, DMA command, binding, cursor, then the same for the receive ring), followed by
the receive buffers acquired by the population loop; and the releases performed are the
release of those receive buffers followed by the undoing of the acquired steps in exactly
the reverse of their acquisition order. -/
theorem setupDMADescriptors_unwind_order (cfg : Config) (env : Env) (s : State)
    (hlen : s.rxBufArray.length = cfg.kNumRxDesc)
    (hfail : (regionStepsSucceed env &&
      populationSucceeds env s.allocCalls cfg.kNumRxDesc) = false) :
    ∃ tb tc tm rb rc rm n,
      ((setupDMADescriptors cfg env s).2.trace.drop s.trace.length).filter isStepAcquire =
        (setupSteps tb tc tm rb rc rm).take n ∧
      ((setupDMADescriptors cfg env s).2.trace.drop s.trace.length).filter isRelease =
        (((setupDMADescriptors cfg env s).2.trace.drop s.trace.length).filterMap
            acquiredBuffer).map Op.freePacket ++
          (((setupDMADescriptors cfg env s).2.trace.drop s.trace.length).filter
            isStepAcquire).reverse.filterMap undo := by
  have h : (setupDMADescriptors cfg env s).1 = false := by
    rw [setup_fst cfg env s hlen]; exact hfail
  obtain ⟨tb, tc, tm, rb, rc, rm, n, bufs, _, hdrop⟩ := setup_failure_drop cfg env s hlen h
  have hacq : ∀ op ∈ (setupSteps tb tc tm rb rc rm).take n, isStepAcquire op = true :=
    fun op hop => setupSteps_isStepAcquire tb tc tm rb rc rm op (List.mem_of_mem_take hop)
  obtain ⟨hs1, hs2, hs3, _⟩ := unwind_shape _ bufs hacq
  refine ⟨tb, tc, tm, rb, rc, rm, n, ?_, ?_⟩
  · rw [hdrop, hs1]
  · rw [hdrop, hs1, hs2, hs3]

theorem setupDMADescriptors_unwind_order_witness :
    sampleIdle.rxBufArray.length = sampleConfig.kNumRxDesc ∧
    (regionStepsSucceed sampleEnvMisaligned &&
      populationSucceeds sampleEnvMisaligned sampleIdle.allocCalls
        sampleConfig.kNumRxDesc) = false ∧
    ∃ tb tc tm rb rc rm n,
      ((setupDMADescriptors sampleConfig sampleEnvMisaligned sampleIdle).2.trace.drop
          sampleIdle.trace.length).filter isStepAcquire =
        (setupSteps tb tc tm rb rc rm).take n ∧
      ((setupDMADescriptors sampleConfig sampleEnvMisaligned sampleIdle).2.trace.drop
          sampleIdle.trace.length).filter isRelease =
        (((setupDMADescriptors sampleConfig sampleEnvMisaligned sampleIdle).2.trace.drop
            sampleIdle.trace.length).filterMap acquiredBuffer).map Op.freePacket ++
          (((setupDMADescriptors sampleConfig sampleEnvMisaligned sampleIdle).2.trace.drop
            sampleIdle.trace.length).filter isStepAcquire).reverse.filterMap undo :=
  ⟨by decide, by decide,
    setupDMADescriptors_unwind_order sampleConfig sampleEnvMisaligned sampleIdle
      (by decide) (by decide)⟩

/-- C3. Setup failure releases everything exactly once: from a state that holds no ring
resource, whenever some step of `setupDMADescriptors` fails (a kernel call before the
population of the receive ring, or the allocation or the segment test of a receive
buffer), the function returns `false`, the releases it performs are, as a multiset,
exactly the undoing of the acquisitions it made (each acquired resource once, nothing
else), every handle and `rxDescArray` is `NULL` on return and no receive slot holds a
buffer. -/
theorem setupDMADescriptors_failure_releases_all (cfg : Config) (env : Env) (s : State)
    (hlen : s.rxBufArray.length = cfg.kNumRxDesc)
    (htc : s.txDescDmaCmd = none) (htm : s.txMbufCursor = none)
    (hrb : s.rxBufDesc = none) (hrd : s.rxDescArray = none) (hrc : s.rxDescDmaCmd = none)
    (hrm : s.rxMbufCursor = none) (hslots : ∀ b ∈ s.rxBufArray, b.mbuf = none)
    (hfail : (regionStepsSucceed env &&
      populationSucceeds env s.allocCalls cfg.kNumRxDesc) = false) :
    (setupDMADescriptors cfg env s).1 = false ∧
    (((setupDMADescriptors cfg env s).2.trace.drop s.trace.length).filter isRelease).Perm
      (((setupDMADescriptors cfg env s).2.trace.drop s.trace.length).filterMap undo) ∧
    (setupDMADescriptors cfg env s).2.txBufDesc = none ∧
    (setupDMADescriptors cfg env s).2.txDescDmaCmd = none ∧
    (setupDMADescriptors cfg env s).2.txMbufCursor = none ∧
    (setupDMADescriptors cfg env s).2.rxBufDesc = none ∧
    (setupDMADescriptors cfg env s).2.rxDescArray = none ∧
    (setupDMADescriptors cfg env s).2.rxDescDmaCmd = none ∧
    (setupDMADescriptors cfg env s).2.rxMbufCursor = none ∧
    (∀ b ∈ (setupDMADescriptors cfg env s).2.rxBufArray, b.mbuf = none) := by
  have h : (setupDMADescriptors cfg env s).1 = false := by
    rw [setup_fst cfg env s hlen]; exact hfail
  obtain ⟨tb, tc, tm, rb, rc, rm, n, bufs, _, hdrop⟩ := setup_failure_drop cfg env s hlen h
  obtain ⟨_, _, _, _, _, _, _, _, _, _, _, _, f1, f2, f3, f4, f5, f6, f7, f8⟩ :=
    setup_failure cfg env s hlen h
  have hacq : ∀ op ∈ (setupSteps tb tc tm rb rc rm).take n, isStepAcquire op = true :=
    fun op hop => setupSteps_isStepAcquire tb tc tm rb rc rm op (List.mem_of_mem_take hop)
  obtain ⟨_, hs2, _, hs4⟩ := unwind_shape _ bufs hacq
  refine ⟨h, ?_, f1, f2 htc, f3 htm, f4 hrb, f5 hrd, f6 hrc, f7 hrm, f8 (Or.inr hslots)⟩
  rw [hdrop, hs2, hs4, List.filterMap_reverse]
  exact List.perm_append_comm.trans (List.Perm.append_right _ (List.reverse_perm _))

theorem setupDMADescriptors_failure_releases_all_witness :
    sampleIdle.rxBufArray.length = sampleConfig.kNumRxDesc ∧
    sampleIdle.txDescDmaCmd = none ∧
    sampleIdle.txMbufCursor = none ∧ sampleIdle.rxBufDesc = none ∧
    sampleIdle.rxDescArray = none ∧ sampleIdle.rxDescDmaCmd = none ∧
    sampleIdle.rxMbufCursor = none ∧ (∀ b ∈ sampleIdle.rxBufArray, b.mbuf = none) ∧
    (regionStepsSucceed sampleEnvRxPrepareFails &&
      populationSucceeds sampleEnvRxPrepareFails sampleIdle.allocCalls
        sampleConfig.kNumRxDesc) = false ∧
    (setupDMADescriptors sampleConfig sampleEnvRxPrepareFails sampleIdle).1 = false ∧
    (((setupDMADescriptors sampleConfig sampleEnvRxPrepareFails sampleIdle).2.trace.drop
        sampleIdle.trace.length).filter isRelease).Perm
      (((setupDMADescriptors sampleConfig sampleEnvRxPrepareFails sampleIdle).2.trace.drop
        sampleIdle.trace.length).filterMap undo) ∧
    (setupDMADescriptors sampleConfig sampleEnvRxPrepareFails sampleIdle).2.txBufDesc = none ∧
    (setupDMADescriptors sampleConfig sampleEnvRxPrepareFails sampleIdle).2.txDescDmaCmd = none ∧
    (setupDMADescriptors sampleConfig sampleEnvRxPrepareFails sampleIdle).2.txMbufCursor = none ∧
    (setupDMADescriptors sampleConfig sampleEnvRxPrepareFails sampleIdle).2.rxBufDesc = none ∧
    (setupDMADescriptors sampleConfig sampleEnvRxPrepareFails sampleIdle).2.rxDescArray = none ∧
    (setupDMADescriptors sampleConfig sampleEnvRxPrepareFails sampleIdle).2.rxDescDmaCmd = none ∧
    (setupDMADescriptors sampleConfig sampleEnvRxPrepareFails sampleIdle).2.rxMbufCursor = none ∧
    (∀ b ∈ (setupDMADescriptors sampleConfig sampleEnvRxPrepareFails sampleIdle).2.rxBufArray,
      b.mbuf = none) :=
  ⟨by decide, by decide, by decide, by decide, by decide, by decide, by decide, by decide,
    by decide,
    setupDMADescriptors_failure_releases_all sampleConfig sampleEnvRxPrepareFails sampleIdle
      (by decide) (by decide) (by decide) (by decide) (by decide) (by decide) (by decide)
      (by decide) (by decide)⟩

theorem populationSucceeds_iff (env : Env) :
    ∀ (n c : Nat), populationSucceeds env c n = true ↔
      ∀ j, j < n → ∃ m, env.allocatePacket (c + j) = some m ∧
        segmentRejected (env.getPhysicalSegments m) = false := by
  intro n
  induction n with
  | zero => intro c; simp [populationSucceeds]
  | succ n ih =>
    intro c
    constructor
    · intro h j hj
      cases hm : env.allocatePacket c with
      | none => simp [populationSucceeds, hm] at h
      | some m =>
        simp only [populationSucceeds, hm, Bool.and_eq_true, Bool.not_eq_true'] at h
        cases j with
        | zero => exact ⟨m, by simpa using hm, h.1⟩
        | succ j =>
          obtain ⟨mj, h1, h2⟩ := (ih (c + 1)).1 h.2 j (by omega)
          exact ⟨mj, by rw [← h1]; congr 1; omega, h2⟩
    · intro h
      obtain ⟨m, hm, hrej⟩ := h 0 (by omega)
      simp only [Nat.add_zero] at hm
      simp only [populationSucceeds, hm, hrej, Bool.not_false, Bool.true_and]
      apply (ih (c + 1)).2
      intro j hj
      obtain ⟨mj, h1, h2⟩ := h (j + 1) (by omega)
      exact ⟨mj, by rw [← h1]; congr 1; omega, h2⟩

theorem acquiredBuffers_count_rejected (env : Env) (m : Nat)
    (hrej : segmentRejected (env.getPhysicalSegments m) = true) :
    ∀ (i n c : Nat), i < n →
      (∀ j, j < i → ∃ mj, env.allocatePacket (c + j) = some mj ∧
        segmentRejected (env.getPhysicalSegments mj) = false) →
      env.allocatePacket (c + i) = some m →
      (acquiredBuffers env c n).count m = 1 := by
  intro i
  induction i with
  | zero =>
    intro n c hn _ hm
    obtain ⟨n, rfl⟩ : ∃ k, n = k + 1 := ⟨n - 1, by omega⟩
    simp only [Nat.add_zero] at hm
    simp [acquiredBuffers, hm, hrej]
  | succ i ih =>
    intro n c hn hprev hm
    obtain ⟨n, rfl⟩ : ∃ k, n = k + 1 := ⟨n - 1, by omega⟩
    obtain ⟨m0, hm0, hok0⟩ := hprev 0 (by omega)
    simp only [Nat.add_zero] at hm0
    have hne : m0 ≠ m := by
      intro heq
      rw [heq, hrej] at hok0
      cases hok0
    have htail := ih n (c + 1) (by omega)
      (fun j hj => by
        obtain ⟨mj, h1, h2⟩ := hprev (j + 1) (by omega)
        exact ⟨mj, by rw [← h1]; congr 1; omega, h2⟩)
      (by rw [← hm]; congr 1; omega)
    simp only [acquiredBuffers, hm0, hok0, Bool.false_eq_true, ↓reduceIte]
    rw [List.count_cons_of_ne (Ne.symm hne), htail]

theorem populationSucceeds_false_of_rejected (env : Env) (m : Nat) (i n c : Nat) (hi : i < n)
    (hm : env.allocatePacket (c + i) = some m)
    (hrej : segmentRejected (env.getPhysicalSegments m) = true) :
    populationSucceeds env c n = false := by
  cases hp : populationSucceeds env c n with
  | false => rfl
  | true =>
    obtain ⟨m', hm', hok⟩ := (populationSucceeds_iff env n c).1 hp i hi
    rw [hm] at hm'
    injection hm' with hm'
    subst hm'
    rw [hrej] at hok
    cases hok

theorem segmentRejected_eq_true (seg : Nat × Nat) :
    segmentRejected seg = true ↔ seg.1 ≠ 1 ∨ seg.2 &&& 0x07ff ≠ 0 := by
  unfold segmentRejected
  simp

theorem freePacket_count_unwind (acq : List Op) (bufs : List Nat) (m : Nat)
    (hacq : ∀ op ∈ acq, isStepAcquire op = true) :
    (acq ++ bufs.map Op.allocatePacket ++ bufs.map Op.freePacket ++
        acq.reverse.filterMap undo).count (Op.freePacket m) = bufs.count m := by
  have hinj : Function.Injective Op.freePacket := fun a c h => by injection h
  have hA : Op.freePacket m ∉ acq := by
    intro hmem
    have := hacq _ hmem
    simp [isStepAcquire, undo] at this
  have hB : Op.freePacket m ∉ bufs.map Op.allocatePacket := by
    intro hmem
    obtain ⟨x, _, hx⟩ := List.mem_map.1 hmem
    cases hx
  have hD : Op.freePacket m ∉ acq.reverse.filterMap undo := by
    intro hmem
    obtain ⟨a, ha, hu⟩ := List.mem_filterMap.1 hmem
    have hstep := hacq a (List.mem_reverse.1 ha)
    cases a <;> simp [undo] at hu
    subst hu
    simp [isStepAcquire, acquiredBuffer] at hstep
  rw [List.count_append, List.count_append, List.count_append,
    List.count_eq_zero_of_not_mem hA, List.count_eq_zero_of_not_mem hB,
    List.count_eq_zero_of_not_mem hD, List.count_map_of_injective _ _ hinj]
  omega

/-- C4. Alignment rejection during receive-ring population: when the population loop
reaches slot `i` and acquires buffer `m` for it, then, if `m` does not resolve to exactly
one segment or its address has one of its low 11 bits set, `setupDMADescriptors` returns
`false`, releases `m` exactly once and leaves no receive slot with a buffer; and if `m`
has one segment at an aligned address the test accepts it, so that setup succeeds when
the buffers of the later slots are acquired and well aligned too. -/
theorem setupDMADescriptors_rejects_misaligned (cfg : Config) (env : Env) (s : State)
    (i m : Nat)
    (hlen : s.rxBufArray.length = cfg.kNumRxDesc)
    (hreach : regionStepsSucceed env = true)
    (hi : i < cfg.kNumRxDesc)
    (hprev : ∀ j, j < i → ∃ mj, env.allocatePacket (s.allocCalls + j) = some mj ∧
      (env.getPhysicalSegments mj).1 = 1 ∧ (env.getPhysicalSegments mj).2 &&& 0x07ff = 0)
    (hm : env.allocatePacket (s.allocCalls + i) = some m) :
    (((env.getPhysicalSegments m).1 ≠ 1 ∨ (env.getPhysicalSegments m).2 &&& 0x07ff ≠ 0) →
      (setupDMADescriptors cfg env s).1 = false ∧
      ((setupDMADescriptors cfg env s).2.trace.drop s.trace.length).count
        (Op.freePacket m) = 1 ∧
      ∀ b ∈ (setupDMADescriptors cfg env s).2.rxBufArray, b.mbuf = none) ∧
    (((env.getPhysicalSegments m).1 = 1 ∧ (env.getPhysicalSegments m).2 &&& 0x07ff = 0) →
      segmentRejected (env.getPhysicalSegments m) = false ∧
      ((∀ j, i < j → j < cfg.kNumRxDesc →
          ∃ mj, env.allocatePacket (s.allocCalls + j) = some mj ∧
            (env.getPhysicalSegments mj).1 = 1 ∧
            (env.getPhysicalSegments mj).2 &&& 0x07ff = 0) →
        (setupDMADescriptors cfg env s).1 = true)) := by
  have hprev' : ∀ j, j < i → ∃ mj, env.allocatePacket (s.allocCalls + j) = some mj ∧
      segmentRejected (env.getPhysicalSegments mj) = false := by
    intro j hj
    obtain ⟨mj, h1, h2, h3⟩ := hprev j hj
    exact ⟨mj, h1, (segmentRejected_eq_false _).2 ⟨h2, h3⟩⟩
  constructor
  · intro hbad
    have hrej : segmentRejected (env.getPhysicalSegments m) = true :=
      (segmentRejected_eq_true _).2 hbad
    have hpop := populationSucceeds_false_of_rejected env m i cfg.kNumRxDesc s.allocCalls hi
      hm hrej
    have h : (setupDMADescriptors cfg env s).1 = false := by
      rw [setup_fst cfg env s hlen, hpop, Bool.and_false]
    obtain ⟨tb, tc, tm, rb, rc, rm, n, bufs, hbufs, hdrop⟩ :=
      setup_failure_drop cfg env s hlen h
    obtain ⟨_, _, _, _, _, _, n', _, _, _, hreg, _, _, _, _, _, _, _, _, hslots⟩ :=
      setup_failure cfg env s hlen h
    have hacq : ∀ op ∈ (setupSteps tb tc tm rb rc rm).take n, isStepAcquire op = true :=
      fun op hop => setupSteps_isStepAcquire tb tc tm rb rc rm op (List.mem_of_mem_take hop)
    refine ⟨h, ?_, hslots (Or.inl (hreg hreach).1)⟩
    rw [hdrop, freePacket_count_unwind _ bufs m hacq, hbufs hreach]
    exact acquiredBuffers_count_rejected env m hrej i cfg.kNumRxDesc s.allocCalls hi hprev' hm
  · intro hgood
    have hok : segmentRejected (env.getPhysicalSegments m) = false :=
      (segmentRejected_eq_false _).2 hgood
    refine ⟨hok, ?_⟩
    intro hlater
    rw [setup_fst cfg env s hlen, hreach, Bool.true_and]
    apply (populationSucceeds_iff env cfg.kNumRxDesc s.allocCalls).2
    intro j hj
    rcases Nat.lt_trichotomy j i with hlt | heq | hgt
    · exact hprev' j hlt
    · subst heq; exact ⟨m, hm, hok⟩
    · obtain ⟨mj, h1, h2, h3⟩ := hlater j hgt hj
      exact ⟨mj, h1, (segmentRejected_eq_false _).2 ⟨h2, h3⟩⟩

theorem setupDMADescriptors_rejects_misaligned_witness :
    sampleIdle.rxBufArray.length = sampleConfig.kNumRxDesc ∧
    regionStepsSucceed sampleEnvMisaligned = true ∧
    1 < sampleConfig.kNumRxDesc ∧
    (∀ j, j < 1 → ∃ mj, sampleEnvMisaligned.allocatePacket (sampleIdle.allocCalls + j) = some mj ∧
      (sampleEnvMisaligned.getPhysicalSegments mj).1 = 1 ∧
      (sampleEnvMisaligned.getPhysicalSegments mj).2 &&& 0x07ff = 0) ∧
    sampleEnvMisaligned.allocatePacket (sampleIdle.allocCalls + 1) = some 101 ∧
    ((sampleEnvMisaligned.getPhysicalSegments 101).1 ≠ 1 ∨
      (sampleEnvMisaligned.getPhysicalSegments 101).2 &&& 0x07ff ≠ 0) ∧
    (setupDMADescriptors sampleConfig sampleEnvMisaligned sampleIdle).1 = false ∧
    ((setupDMADescriptors sampleConfig sampleEnvMisaligned sampleIdle).2.trace.drop
      sampleIdle.trace.length).count (Op.freePacket 101) = 1 ∧
    ∀ b ∈ (setupDMADescriptors sampleConfig sampleEnvMisaligned sampleIdle).2.rxBufArray,
      b.mbuf = none :=
  have hprev : ∀ j, j < 1 →
      ∃ mj, sampleEnvMisaligned.allocatePacket (sampleIdle.allocCalls + j) = some mj ∧
        (sampleEnvMisaligned.getPhysicalSegments mj).1 = 1 ∧
        (sampleEnvMisaligned.getPhysicalSegments mj).2 &&& 0x07ff = 0 := by
    intro j hj
    have hj0 : j = 0 := by omega
    subst hj0
    exact ⟨100, by decide, by decide, by decide⟩
  ⟨by decide, by decide, by decide, hprev, by decide, Or.inr (by decide),
    (setupDMADescriptors_rejects_misaligned sampleConfig sampleEnvMisaligned sampleIdle 1 101
      (by decide) (by decide) (by decide) hprev (by decide)).1 (Or.inr (by decide))⟩

/-- C5. Receive-ring address invariant: when `setupDMADescriptors` returns `true`, every
receive slot `i < kNumRxDesc` holds a buffer, its cached `phyAddr` is the address of the
single segment of that buffer and has its low 11 bits clear, and descriptor `i` holds the
converted `phyAddr` with `reserved = 0`; and in any later state with the same slot
metadata, whatever the descriptors contain, `clearDescriptors` leaves the metadata as it
is and makes descriptor `i` hold the converted cached address with `reserved = 0`
again. -/
theorem setupDMADescriptors_rx_address_invariant (cfg : Config) (env : Env) (s : State)
    (hlen : s.rxBufArray.length = cfg.kNumRxDesc)
    (hok : (setupDMADescriptors cfg env s).1 = true) :
    (∃ descs, (setupDMADescriptors cfg env s).2.rxDescArray = some descs ∧
      descs.length = cfg.kNumRxDesc ∧
      ∀ i, i < cfg.kNumRxDesc → ∃ m loc,
        (setupDMADescriptors cfg env s).2.rxBufArray[i]? =
          some { mbuf := some m, phyAddr := loc } ∧
        env.getPhysicalSegments m = (1, loc) ∧ loc &&& 0x07ff = 0 ∧
        descs[i]? = some { buffer_addr := cfg.OSSwapHostToLittleInt64 loc, reserved := 0 }) ∧
    (∀ (s' : State) (hw : List RxDesc),
      s'.rxBufArray = (setupDMADescriptors cfg env s).2.rxBufArray →
      s'.rxDescArray = some hw → hw.length = cfg.kNumRxDesc →
      (clearDescriptors cfg s').rxBufArray = (setupDMADescriptors cfg env s).2.rxBufArray ∧
      ∃ descs', (clearDescriptors cfg s').rxDescArray = some descs' ∧
        descs'.length = cfg.kNumRxDesc ∧
        ∀ i, i < cfg.kNumRxDesc → ∃ m loc,
          (clearDescriptors cfg s').rxBufArray[i]? =
            some { mbuf := some m, phyAddr := loc } ∧
          env.getPhysicalSegments m = (1, loc) ∧ loc &&& 0x07ff = 0 ∧
          descs'[i]? =
            some { buffer_addr := cfg.OSSwapHostToLittleInt64 loc, reserved := 0 }) := by
  obtain ⟨tb, tc, ta, tm, rb, rc, ra, rm, arr, descs, tr, calls, hfin, hal, hdl, hslot⟩ :=
    setup_success cfg env s hlen hok
  have hbuf : (setupDMADescriptors cfg env s).2.rxBufArray = arr := by rw [hfin]
  have hdesc : (setupDMADescriptors cfg env s).2.rxDescArray = some descs := by rw [hfin]
  constructor
  · refine ⟨descs, hdesc, hdl, ?_⟩
    intro i hi
    rw [hbuf]
    exact hslot i hi
  · intro s' hw hb hd hwl
    rw [hbuf] at hb ⊢
    refine ⟨by rw [clearDescriptors_eq]; exact hb, ?_⟩
    refine ⟨restoredDescs cfg cfg.kNumRxDesc s'.rxBufArray hw, ?_, ?_, ?_⟩
    · simp [clearDescriptors_eq, hd]
    · simp [restoredDescs, hwl]
    · intro i hi
      obtain ⟨m, loc, h1, h2, h3, _⟩ := hslot i hi
      have hi2 : i < hw.length := by omega
      refine ⟨m, loc, ?_, h2, h3, ?_⟩
      · rw [clearDescriptors_eq]
        simpa [hb] using h1
      · simp [restoredDescs, hb, h1, List.getElem?_eq_getElem hi2, hi]

theorem setupDMADescriptors_rx_address_invariant_witness :
    sampleIdle.rxBufArray.length = sampleConfig.kNumRxDesc ∧
    (setupDMADescriptors sampleConfig sampleEnv sampleIdle).1 = true ∧
    (∃ descs, (setupDMADescriptors sampleConfig sampleEnv sampleIdle).2.rxDescArray =
        some descs ∧
      descs.length = sampleConfig.kNumRxDesc ∧
      ∀ i, i < sampleConfig.kNumRxDesc → ∃ m loc,
        (setupDMADescriptors sampleConfig sampleEnv sampleIdle).2.rxBufArray[i]? =
          some { mbuf := some m, phyAddr := loc } ∧
        sampleEnv.getPhysicalSegments m = (1, loc) ∧ loc &&& 0x07ff = 0 ∧
        descs[i]? =
          some { buffer_addr := sampleConfig.OSSwapHostToLittleInt64 loc, reserved := 0 }) ∧
    (∀ (s' : State) (hw : List RxDesc),
      s'.rxBufArray = (setupDMADescriptors sampleConfig sampleEnv sampleIdle).2.rxBufArray →
      s'.rxDescArray = some hw → hw.length = sampleConfig.kNumRxDesc →
      (clearDescriptors sampleConfig s').rxBufArray =
        (setupDMADescriptors sampleConfig sampleEnv sampleIdle).2.rxBufArray ∧
      ∃ descs', (clearDescriptors sampleConfig s').rxDescArray = some descs' ∧
        descs'.length = sampleConfig.kNumRxDesc ∧
        ∀ i, i < sampleConfig.kNumRxDesc → ∃ m loc,
          (clearDescriptors sampleConfig s').rxBufArray[i]? =
            some { mbuf := some m, phyAddr := loc } ∧
          sampleEnv.getPhysicalSegments m = (1, loc) ∧ loc &&& 0x07ff = 0 ∧
          descs'[i]? =
            some { buffer_addr := sampleConfig.OSSwapHostToLittleInt64 loc,
                   reserved := 0 }) :=
  ⟨by decide, by decide,
    setupDMADescriptors_rx_address_invariant sampleConfig sampleEnv sampleIdle
      (by decide) (by decide)⟩

/-- C10, as stated, fails: on the inconsistent ring `sampleStale`, `clearDescriptors`
leaves `pad = 9` in slot 0 and `numDescs = 3` in slot 1, which is not the transmit ring
that a successful `setupDMADescriptors` establishes. -/
theorem clearDescriptors_keeps_stale_metadata :
    (clearDescriptors sampleConfig sampleStale).txBufArray =
      [⟨none, 0, 9⟩, ⟨none, 3, 0⟩] ∧
    (setupDMADescriptors sampleConfig sampleEnv sampleStale).1 = true ∧
    (setupDMADescriptors sampleConfig sampleEnv sampleStale).2.txBufArray =
      [⟨none, 0, 0⟩, ⟨none, 0, 0⟩] ∧
    (clearDescriptors sampleConfig sampleStale).txBufArray ≠
      (setupDMADescriptors sampleConfig sampleEnv sampleStale).2.txBufArray := by
  decide

/-- C10, amended. For every prior transmit ring, after `clearDescriptors` every slot has
`mbuf = NULL`, `numDescs` is 0 in a slot that held a buffer and unchanged in a slot that
held none, `pad` is unchanged, the three cursors are 0 and `txNumFreeDesc = kNumTxDesc`;
the transmit slots are those that a successful `setupDMADescriptors` establishes (all
`mbuf = NULL`, `numDescs = 0`, `pad = 0`) exactly when, before the call, every slot had
`pad = 0` and every slot without a buffer had `numDescs = 0`. -/
theorem clearDescriptors_tx_state (cfg : Config) (s : State)
    (hlen : s.txBufArray.length = cfg.kNumTxDesc) :
    (∀ i, i < cfg.kNumTxDesc → ∃ b,
      s.txBufArray[i]? = some b ∧
      (clearDescriptors cfg s).txBufArray[i]? =
        some { mbuf := none, numDescs := if b.mbuf.isSome then 0 else b.numDescs,
               pad := b.pad }) ∧
    (clearDescriptors cfg s).txNextDescIndex = 0 ∧
    (clearDescriptors cfg s).txDirtyIndex = 0 ∧
    (clearDescriptors cfg s).txCleanBarrierIndex = 0 ∧
    (clearDescriptors cfg s).txNumFreeDesc = cfg.kNumTxDesc ∧
    ((clearDescriptors cfg s).txBufArray = List.replicate cfg.kNumTxDesc ⟨none, 0, 0⟩ ↔
      ∀ b ∈ s.txBufArray, b.pad = 0 ∧ (b.mbuf = none → b.numDescs = 0)) ∧
    (∀ (env : Env) (s0 : State), s0.txBufArray.length = cfg.kNumTxDesc →
      s0.rxBufArray.length = cfg.kNumRxDesc → (setupDMADescriptors cfg env s0).1 = true →
      (setupDMADescriptors cfg env s0).2.txBufArray =
        List.replicate cfg.kNumTxDesc ⟨none, 0, 0⟩ ∧
      (setupDMADescriptors cfg env s0).2.txNextDescIndex = 0 ∧
      (setupDMADescriptors cfg env s0).2.txDirtyIndex = 0 ∧
      (setupDMADescriptors cfg env s0).2.txCleanBarrierIndex = 0 ∧
      (setupDMADescriptors cfg env s0).2.txNumFreeDesc = cfg.kNumTxDesc) := by
  have hmap : (clearDescriptors cfg s).txBufArray = s.txBufArray.map clearedTxBuf := by
    rw [clearDescriptors_eq]
    exact mapFirst_of_length_le _ _ _ (by omega)
  refine ⟨?_, by simp [clearDescriptors_eq], by simp [clearDescriptors_eq],
    by simp [clearDescriptors_eq], by simp [clearDescriptors_eq], ?_, ?_⟩
  · intro i hi
    have hi2 : i < s.txBufArray.length := by omega
    refine ⟨s.txBufArray[i], List.getElem?_eq_getElem hi2, ?_⟩
    rw [hmap, List.getElem?_map, List.getElem?_eq_getElem hi2]
    unfold clearedTxBuf
    cases hm : (s.txBufArray[i]).mbuf <;> simp [hm]
    rw [← hm]
  · rw [hmap, ← hlen]
    constructor
    · intro h b hb
      have hb2 : clearedTxBuf b ∈ s.txBufArray.map clearedTxBuf := List.mem_map_of_mem _ hb
      rw [h] at hb2
      have hc := List.eq_of_mem_replicate hb2
      unfold clearedTxBuf at hc
      cases hm : b.mbuf with
      | none =>
        simp only [hm] at hc
        rw [hc]
        exact ⟨rfl, fun _ => rfl⟩
      | some m =>
        simp only [hm] at hc
        have hp : b.pad = 0 := by
          have := congrArg TxBuf.pad hc
          simpa using this
        exact ⟨hp, fun h => by cases h⟩
    · intro h
      apply List.ext_getElem?
      intro j
      rw [List.getElem?_map, List.getElem?_replicate]
      by_cases hj : j < s.txBufArray.length
      · obtain ⟨hp, hn⟩ := h _ (List.getElem_mem hj)
        rw [List.getElem?_eq_getElem hj]
        simp only [hj, if_true, Option.map_some']
        congr 1
        unfold clearedTxBuf
        cases hm : (s.txBufArray[j]).mbuf with
        | none =>
          have h1 := hn hm
          simp only
          cases hs : s.txBufArray[j] with
          | mk mb nd pd =>
            rw [hs] at hm hp h1
            simp only at hm hp h1
            subst hm hp h1
            rfl
        | some m =>
          simp only [hp]
      · have : s.txBufArray[j]? = none := by simp; omega
        simp [this, hj]
  · intro env s0 htx hrx hok
    obtain ⟨tb, tc, ta, tm, rb, rc, ra, rm, arr, descs, tr, calls, hfin, _⟩ :=
      setup_success cfg env s0 hrx hok
    rw [hfin]
    refine ⟨?_, rfl, rfl, rfl, rfl⟩
    show mapFirst cfg.kNumTxDesc (fun _ => (⟨none, 0, 0⟩ : TxBuf)) s0.txBufArray = _
    rw [mapFirst_of_length_le _ _ _ (by omega), ← htx]
    apply List.ext_getElem?
    intro j
    rw [List.getElem?_map, List.getElem?_replicate]
    by_cases hj : j < s0.txBufArray.length
    · simp [hj, List.getElem?_eq_getElem hj]
    · have : s0.txBufArray[j]? = none := by simp; omega
      simp [this, hj]

theorem clearDescriptors_tx_state_witness :
    sampleStale.txBufArray.length = sampleConfig.kNumTxDesc ∧
    (∀ i, i < sampleConfig.kNumTxDesc → ∃ b,
      sampleStale.txBufArray[i]? = some b ∧
      (clearDescriptors sampleConfig sampleStale).txBufArray[i]? =
        some { mbuf := none, numDescs := if b.mbuf.isSome then 0 else b.numDescs,
               pad := b.pad }) ∧
    (clearDescriptors sampleConfig sampleStale).txNextDescIndex = 0 ∧
    (clearDescriptors sampleConfig sampleStale).txDirtyIndex = 0 ∧
    (clearDescriptors sampleConfig sampleStale).txCleanBarrierIndex = 0 ∧
    (clearDescriptors sampleConfig sampleStale).txNumFreeDesc = sampleConfig.kNumTxDesc ∧
    ((clearDescriptors sampleConfig sampleStale).txBufArray = List.replicate sampleConfig.kNumTxDesc ⟨none, 0, 0⟩ ↔
      ∀ b ∈ sampleStale.txBufArray, b.pad = 0 ∧ (b.mbuf = none → b.numDescs = 0)) ∧
    (∀ (env : Env) (s0 : State), s0.txBufArray.length = sampleConfig.kNumTxDesc →
      s0.rxBufArray.length = sampleConfig.kNumRxDesc → (setupDMADescriptors sampleConfig env s0).1 = true →
      (setupDMADescriptors sampleConfig env s0).2.txBufArray =
        List.replicate sampleConfig.kNumTxDesc ⟨none, 0, 0⟩ ∧
      (setupDMADescriptors sampleConfig env s0).2.txNextDescIndex = 0 ∧
      (setupDMADescriptors sampleConfig env s0).2.txDirtyIndex = 0 ∧
      (setupDMADescriptors sampleConfig env s0).2.txCleanBarrierIndex = 0 ∧
      (setupDMADescriptors sampleConfig env s0).2.txNumFreeDesc = sampleConfig.kNumTxDesc) :=
  ⟨by decide, clearDescriptors_tx_state sampleConfig sampleStale (by decide)⟩

/-! ## Lemmas on `getParams` -/

theorem intrThr_of_clamp (x : Nat) :
    3906250 / (((if x < 2500 then 2500 else if x > 10000 then 10000 else x) + 1) % 2 ^ 32) =
      3906250 / (max 2500 (min 10000 x) + 1) := by
  have h : (if x < 2500 then 2500 else if x > 10000 then 10000 else x) =
      max 2500 (min 10000 x) := by
    split_ifs <;> omega
  rw [h, Nat.mod_eq_of_lt (by omega)]

theorem getParams_intrThrValue_eq (params : Option Params) :
    (getParams params).intrThrValue10 =
      3906250 / (clampedRate 3000 (params.bind Params.intrRate10) + 1) ∧
    (getParams params).intrThrValue100 =
      3906250 / (clampedRate 5000 (params.bind Params.intrRate100) + 1) ∧
    (getParams params).intrThrValue1000 =
      3906250 / (clampedRate 7000 (params.bind Params.intrRate1000) + 1) := by
  cases params with
  | none => exact ⟨rfl, rfl, rfl⟩
  | some p =>
    refine ⟨?_, ?_, ?_⟩
    · show 3906250 / (((if _ < 2500 then 2500 else if _ > 10000 then 10000 else _) + 1)
        % 2 ^ 32) = _
      rw [intrThr_of_clamp]
      cases h : p.intrRate10 <;> simp [clampedRate, h, unsigned32BitValue]
    · show 3906250 / (((if _ < 2500 then 2500 else if _ > 10000 then 10000 else _) + 1)
        % 2 ^ 32) = _
      rw [intrThr_of_clamp]
      cases h : p.intrRate100 <;> simp [clampedRate, h, unsigned32BitValue]
    · show 3906250 / (((if _ < 2500 then 2500 else if _ > 10000 then 10000 else _) + 1)
        % 2 ^ 32) = _
      rw [intrThr_of_clamp]
      cases h : p.intrRate1000 <;> simp [clampedRate, h, unsigned32BitValue]

theorem clampedRate_bounds (fallback : Nat) (num : Option Nat)
    (h1 : 2500 ≤ fallback) (h2 : fallback ≤ 10000) :
    2500 ≤ clampedRate fallback num ∧ clampedRate fallback num ≤ 10000 := by
  unfold clampedRate
  cases num with
  | none => exact ⟨h1, h2⟩
  | some v => simp only; omega

theorem intrThr_bounds (r : Nat) (h1 : 2500 ≤ r) (h2 : r ≤ 10000) :
    390 ≤ 3906250 / (r + 1) ∧ 3906250 / (r + 1) ≤ 1561 := by
  constructor
  · rw [Nat.le_div_iff_mul_le (by omega)]
    omega
  · have : 3906250 / (r + 1) < 1562 := by
      rw [Nat.div_lt_iff_lt_mul (by omega)]
      omega
    omega


theorem intrThr_antitone (fallback v w : Nat) (hvw : v ≤ w) (hw : w < 2 ^ 32) :
    3906250 / (clampedRate fallback (some w) + 1) ≤
      3906250 / (clampedRate fallback (some v) + 1) := by
  apply Nat.div_le_div_left _ (by omega)
  simp only [clampedRate]
  rw [Nat.mod_eq_of_lt hw, Nat.mod_eq_of_lt (by omega)]
  omega

/-- C11. Interrupt-throttle values computed by `getParams`: whether the parameter
dictionary is absent, a rate key is absent or a rate key holds a value `v`, each of
`intrThrValue10`, `intrThrValue100` and `intrThrValue1000` is `3906250 / (r + 1)`, where
`r` is the 32-bit value `v` clamped to `[2500, 10000]`, or the default 3000, 5000 or 7000;
so each lies in `[390, 1561]`, `r + 1` is non-zero and does not wrap around `2 ^ 32`,
and each value does not increase when the 32-bit value under its key grows. -/
theorem getParams_intrThrValue_in_range (params : Option Params) :
    ((getParams params).intrThrValue10 =
        3906250 / (clampedRate 3000 (params.bind Params.intrRate10) + 1) ∧
      (getParams params).intrThrValue100 =
        3906250 / (clampedRate 5000 (params.bind Params.intrRate100) + 1) ∧
      (getParams params).intrThrValue1000 =
        3906250 / (clampedRate 7000 (params.bind Params.intrRate1000) + 1)) ∧
    (390 ≤ (getParams params).intrThrValue10 ∧ (getParams params).intrThrValue10 ≤ 1561 ∧
      390 ≤ (getParams params).intrThrValue100 ∧ (getParams params).intrThrValue100 ≤ 1561 ∧
      390 ≤ (getParams params).intrThrValue1000 ∧
      (getParams params).intrThrValue1000 ≤ 1561) ∧
    (0 < (clampedRate 3000 (params.bind Params.intrRate10) + 1) % 2 ^ 32 ∧
      (clampedRate 3000 (params.bind Params.intrRate10) + 1) % 2 ^ 32 =
        clampedRate 3000 (params.bind Params.intrRate10) + 1 ∧
      0 < (clampedRate 5000 (params.bind Params.intrRate100) + 1) % 2 ^ 32 ∧
      (clampedRate 5000 (params.bind Params.intrRate100) + 1) % 2 ^ 32 =
        clampedRate 5000 (params.bind Params.intrRate100) + 1 ∧
      0 < (clampedRate 7000 (params.bind Params.intrRate1000) + 1) % 2 ^ 32 ∧
      (clampedRate 7000 (params.bind Params.intrRate1000) + 1) % 2 ^ 32 =
        clampedRate 7000 (params.bind Params.intrRate1000) + 1) ∧
    (∀ (p : Params) (v w : Nat), v ≤ w → w < 2 ^ 32 →
      (getParams (some { p with intrRate10 := some w })).intrThrValue10 ≤
        (getParams (some { p with intrRate10 := some v })).intrThrValue10 ∧
      (getParams (some { p with intrRate100 := some w })).intrThrValue100 ≤
        (getParams (some { p with intrRate100 := some v })).intrThrValue100 ∧
      (getParams (some { p with intrRate1000 := some w })).intrThrValue1000 ≤
        (getParams (some { p with intrRate1000 := some v })).intrThrValue1000) := by
  obtain ⟨e10, e100, e1000⟩ := getParams_intrThrValue_eq params
  obtain ⟨a10, b10⟩ := clampedRate_bounds 3000 (params.bind Params.intrRate10)
    (by omega) (by omega)
  obtain ⟨a100, b100⟩ := clampedRate_bounds 5000 (params.bind Params.intrRate100)
    (by omega) (by omega)
  obtain ⟨a1000, b1000⟩ := clampedRate_bounds 7000 (params.bind Params.intrRate1000)
    (by omega) (by omega)
  refine ⟨⟨e10, e100, e1000⟩, ?_, ?_, ?_⟩
  · rw [e10, e100, e1000]
    exact ⟨(intrThr_bounds _ a10 b10).1, (intrThr_bounds _ a10 b10).2,
      (intrThr_bounds _ a100 b100).1, (intrThr_bounds _ a100 b100).2,
      (intrThr_bounds _ a1000 b1000).1, (intrThr_bounds _ a1000 b1000).2⟩
  · rw [Nat.mod_eq_of_lt (by omega), Nat.mod_eq_of_lt (by omega),
      Nat.mod_eq_of_lt (by omega)]
    exact ⟨by omega, rfl, by omega, rfl, by omega, rfl⟩
  · intro p v w hvw hw
    refine ⟨?_, ?_, ?_⟩
    · rw [(getParams_intrThrValue_eq (some { p with intrRate10 := some w })).1,
        (getParams_intrThrValue_eq (some { p with intrRate10 := some v })).1]
      exact intrThr_antitone 3000 v w hvw hw
    · rw [(getParams_intrThrValue_eq (some { p with intrRate100 := some w })).2.1,
        (getParams_intrThrValue_eq (some { p with intrRate100 := some v })).2.1]
      exact intrThr_antitone 5000 v w hvw hw
    · rw [(getParams_intrThrValue_eq (some { p with intrRate1000 := some w })).2.2,
        (getParams_intrThrValue_eq (some { p with intrRate1000 := some v })).2.2]
      exact intrThr_antitone 7000 v w hvw hw

end IntelMausi
